import Mathlib

/-!
# Verification of the pinky-wasm compiler pipeline

A shallow embedding of the pinky-wasm source-to-WebAssembly compiler
(lexer, parser, code generator, runtime-helper bodies and compile-time
state), translated from the TypeScript sources:

* `src/compiler/wasm.ts`      — LEB128 / IEEE-754 encodings, opcode helpers
* `src/compiler/functions.ts` — function signatures, indices, helper bodies
* `src/compiler/state.ts`     — scope stack, local-index allocator, string table
* `src/compiler.ts`           — statement/expression code generator, module assembly
* `src/lexer.ts`              — tokenizer
* `src/parser.ts`             — recursive-descent / Pratt-style parser

Modelling conventions: JavaScript doubles that carry numeric values are
modelled as rationals (`ℚ`); integer-valued JS numbers (indices, offsets,
lengths) as `ℕ` or `ℤ`; emitted bytes as `List ℕ` (each element < 256 by
construction); JS exceptions as `Except`; module-level mutable state as an
explicit state record threaded through every function.  `console.log`
calls in the sources are side effects with no bearing on results and are
dropped.  Mutation of a `Map`/array in place becomes functional update.
-/

set_option linter.unusedVariables false

namespace PinkyWasm

/-! ## src/compiler/wasm.ts — encodings

`unsignedLEB` in the source first coerces with `value >>> 0` (JS ToUint32);
for the natural-number inputs the compiler passes this is `value % 2^32`.
The do/while loop is modelled with fuel: each iteration divides the value
by 128, so 20 iterations cover every input below `2^140`, far beyond the
32-bit range the source can produce. -/

def unsignedLEBGo : ℕ → ℕ → List ℕ
  | 0, _ => []
  | fuel + 1, v =>
    -- byte = v & 0x7f; v >>>= 7; if (v !== 0) byte |= 0x80
    let byte := v % 0x80
    let v2 := v / 0x80
    if v2 ≠ 0 then (byte + 0x80) :: unsignedLEBGo fuel v2 else [byte]

def unsignedLEB (value : ℕ) : List ℕ :=
  unsignedLEBGo 20 (value % 2 ^ 32)

/-- `signedLEB` from the source.  JS bitwise operators act on the 32-bit
two's-complement value: `v & 0x7f` is `Int.emod v 128` and the arithmetic
shift `v >> 7` is floor division `Int.ediv v 128`.  The do/while loop's
continuation condition recomputes exactly the `more` flag of the body, so
the loop is modelled as: emit byte, recurse iff `more`. -/
def signedLEBGo : ℕ → ℤ → List ℕ
  | 0, _ => []
  | fuel + 1, v =>
    let byte := (Int.emod v 128).toNat
    let shifted := Int.ediv v 128
    let signBit := byte &&& 0x40
    let more : Bool := ! ((shifted == 0 && signBit == 0) ||
                          (shifted == -1 && signBit != 0))
    if more then (byte ||| 0x80) :: signedLEBGo fuel shifted else [byte]

def signedLEB (value : ℤ) : List ℕ :=
  signedLEBGo 20 value

/-! ### JavaScript numbers

A JS double carrying a numeric value is modelled as an exact fraction
`num / den` with `den > 0` at every construction site.  (Mathlib's `ℚ`
is not used here because `Rat` arithmetic normalises through `Nat.gcd`,
whose well-founded recursion blocks kernel reduction; these unnormalised
fractions keep the whole embedding kernel-computable.)  The values the
compiler and parser actually build are lexer literals and their
negations, so every operation below is exact. -/

structure JSNum where
  num : ℤ
  den : ℤ
deriving DecidableEq, Repr

instance : OfNat JSNum n := ⟨⟨n, 1⟩⟩

def JSNum.neg (x : JSNum) : JSNum := ⟨-x.num, x.den⟩

instance : Neg JSNum := ⟨JSNum.neg⟩

def JSNum.sub (x y : JSNum) : JSNum :=
  ⟨x.num * y.den - y.num * x.den, x.den * y.den⟩

/-- Strict order by cross-multiplication (valid for positive
denominators). -/
def JSNum.blt (x y : JSNum) : Bool := x.num * y.den < y.num * x.den

def JSNum.ble (x y : JSNum) : Bool := x.num * y.den ≤ y.num * x.den

def JSNum.isZero (x : JSNum) : Bool := x.num == 0

def JSNum.isNeg (x : JSNum) : Bool := x.num < 0

def JSNum.abs (x : JSNum) : JSNum := ⟨|x.num|, x.den⟩

/-- Floor of the fraction (denominator positive). -/
def JSNum.floor (x : JSNum) : ℤ := Int.ediv x.num x.den

/-- `x * 2^k` for an integer `k` of either sign. -/
def JSNum.mulPow2 (x : JSNum) (k : ℤ) : JSNum :=
  if 0 ≤ k then ⟨x.num * ((2 ^ k.toNat : ℕ) : ℤ), x.den⟩
  else ⟨x.num, x.den * ((2 ^ (-k).toNat : ℕ) : ℤ)⟩

/-! `encodeF64` in the source delegates to `DataView.setFloat64`
(little-endian IEEE-754 binary64).  We model the encoding directly
(the AST stores finite numeric literals; NaN/±∞ never reach `encodeF64`
from the embedded compiler). -/

/-- Round a non-negative value to the nearest integer, ties to even
(the IEEE-754 default rounding used by `setFloat64`). -/
def roundNearestEven (x : JSNum) : ℕ :=
  let n := x.floor.toNat
  let r := x.sub ⟨n, 1⟩
  if JSNum.blt ⟨1, 2⟩ r then n + 1
  else if JSNum.blt r ⟨1, 2⟩ then n
  else if n % 2 = 0 then n else n + 1

/-- Smallest `k ≥ start` with `a * 2^k ≥ 1` (fuel-bounded search; 1200
steps cover every magnitude down to `2^(-1200)`, below which the value
rounds to zero in binary64 anyway). -/
def findBinExpGo : ℕ → JSNum → ℕ → ℕ
  | 0, _, k => k
  | fuel + 1, a, k =>
    if JSNum.ble 1 (a.mulPow2 k) then k else findBinExpGo fuel a (k + 1)

/-- For `a ≥ 1`: the largest `e` with `2^e ≤ a`, as the first `e` with
`a < 2^(e+1)` (fuel-bounded; 1200 steps cover every finite double). -/
def findExpUpGo : ℕ → JSNum → ℕ → ℕ
  | 0, _, k => k
  | fuel + 1, a, k =>
    if JSNum.blt a ⟨((2 ^ (k + 1) : ℕ) : ℤ), 1⟩ then k
    else findExpUpGo fuel a (k + 1)

/-- Binary exponent of `a > 0`: the `e` with `2^e ≤ a < 2^(e+1)`. -/
def binExp (a : JSNum) : ℤ :=
  if JSNum.ble 1 a then (findExpUpGo 1200 a 0 : ℤ)
  else -(findBinExpGo 1200 a 1 : ℤ)

/-- IEEE-754 binary64 little-endian encoding of a numeric value
(the behaviour of `new DataView(buffer).setFloat64(0, value, true)`). -/
def encodeF64 (value : JSNum) : List ℕ :=
  let bits :=
    if value.isZero then 0
    else
      let s : ℕ := if value.isNeg then 1 else 0
      let a := value.abs
      let e := binExp a
      let ef :=
        if e < -1022 then
          -- subnormal range: fixed scale 2^(-1074)
          let m := roundNearestEven (a.mulPow2 1074)
          if 2 ^ 52 ≤ m then ((1 : ℕ), m - 2 ^ 52) else ((0 : ℕ), m)
        else
          let m := roundNearestEven (a.mulPow2 (52 - e))
          let em := if m = 2 ^ 53 then (e + 1, 2 ^ 52) else (e, m)
          if em.1 > 1023 then ((2047 : ℕ), (0 : ℕ))
          else ((em.1 + 1023).toNat, em.2 - 2 ^ 52)
      s * 2 ^ 63 + ef.1 * 2 ^ 52 + ef.2
  (List.range 8).map fun i => bits / 2 ^ (8 * i) % 256

/-! UTF-8 (the behaviour of `TextEncoder.encode`). -/

def utf8EncodeChar (c : Char) : List ℕ :=
  let n := c.toNat
  if n < 0x80 then [n]
  else if n < 0x800 then [0xC0 + n / 64, 0x80 + n % 64]
  else if n < 0x10000 then
    [0xE0 + n / 4096, 0x80 + n / 64 % 64, 0x80 + n % 64]
  else
    [0xF0 + n / 262144, 0x80 + n / 4096 % 64, 0x80 + n / 64 % 64, 0x80 + n % 64]

def utf8Bytes (s : String) : List ℕ :=
  (s.data.map utf8EncodeChar).flatten

/-- `encodeString`: a one-byte length followed by the UTF-8 bytes. -/
def encodeString (str : String) : List ℕ :=
  (utf8Bytes str).length :: utf8Bytes str

/-- `emitSection`: section id byte, LEB-encoded payload size, payload. -/
def emitSection (sectionId : ℕ) (payload : List ℕ) : List ℕ :=
  sectionId :: unsignedLEB payload.length ++ payload

/-! ## src/compiler/wasm.ts — opcode helpers

The source groups these as objects (`local.get`, `i32.const`, …); `local`,
`else` and friends are Lean keywords, so the object nesting is flattened
into underscore names.  Value types are the closed string set
`"i32" | "f64" | "void"`, modelled as an inductive. -/

inductive ValT
  | i32t
  | f64t
  | voidt
deriving DecidableEq, Repr

def valType : ValT → ℕ
  | .i32t => 0x7f
  | .f64t => 0x7c
  | .voidt => 0x40

/-- `local.declare(...types)`: counts per type in first-occurrence order
(a JS `Map` keyed by the type), then `LEB(groups) ++ (LEB(count), code)*`;
no arguments emit the single byte `0x00`. -/
def localDeclareGroups : List ValT → List (ValT × ℕ) → List (ValT × ℕ)
  | [], acc => acc
  | t :: ts, acc =>
    let acc2 :=
      if (acc.lookup t).isSome then
        acc.map fun p => if p.1 = t then (p.1, p.2 + 1) else p
      else acc ++ [(t, 1)]
    localDeclareGroups ts acc2

def local_declare (types : List ValT) : List ℕ :=
  if types.length = 0 then [0x00]
  else
    let groups := localDeclareGroups types []
    unsignedLEB groups.length ++
      (groups.map fun g => unsignedLEB g.2 ++ [valType g.1]).flatten

def local_get (index : ℕ) : List ℕ := 0x20 :: unsignedLEB index
def local_set (index : ℕ) : List ℕ := 0x21 :: unsignedLEB index
def local_tee (index : ℕ) : List ℕ := 0x22 :: unsignedLEB index

def global_get (index : ℕ) : List ℕ := 0x23 :: unsignedLEB index
def global_set (index : ℕ) : List ℕ := 0x24 :: unsignedLEB index

def i32_const (value : ℤ) : List ℕ := 0x41 :: signedLEB value
def i32_eq : List ℕ := [0x46]
def i32_eqz : List ℕ := [0x45]
def i32_gt_u : List ℕ := [0x4b]
def i32_ge_s : List ℕ := [0x4e]
def i32_ge_u : List ℕ := [0x4f]
def i32_ne : List ℕ := [0x47]
def i32_lt_s : List ℕ := [0x48]
def i32_add : List ℕ := [0x6a]
def i32_sub : List ℕ := [0x6b]
def i32_mul : List ℕ := [0x6c]
def i32_and : List ℕ := [0x71]
def i32_or : List ℕ := [0x72]
def i32_shl : List ℕ := [0x74]
def i32_shr_u : List ℕ := [0x76]
def i32_trunc_f64_s : List ℕ := [0xaa]
def i32_load (offset : ℕ := 0) : List ℕ := 0x28 :: 0x02 :: unsignedLEB offset
def i32_store (offset : ℕ := 0) : List ℕ := 0x36 :: 0x02 :: unsignedLEB offset
def i32_load8_u (offset : ℕ := 0) : List ℕ := 0x2d :: 0x00 :: unsignedLEB offset
def i32_store8 (offset : ℕ := 0) : List ℕ := 0x3a :: 0x00 :: unsignedLEB offset

def global_setFromOffset (offset : ℤ) (index : ℕ := 0) : List ℕ :=
  global_get index ++ i32_const offset ++ i32_add ++ global_set index

def f64_const (value : JSNum) : List ℕ := 0x44 :: encodeF64 value
def f64_eq : List ℕ := [0x61]
def f64_ne : List ℕ := [0x62]
def f64_lt : List ℕ := [0x63]
def f64_gt : List ℕ := [0x64]
def f64_le : List ℕ := [0x65]
def f64_ge : List ℕ := [0x66]
def f64_add : List ℕ := [0xa0]
def f64_sub : List ℕ := [0xa1]
def f64_mul : List ℕ := [0xa2]
def f64_convert_i32_u : List ℕ := [0xb8]
def f64_convert_i32_s : List ℕ := [0xb7]
def f64_div : List ℕ := [0xa3]
def f64_neg : List ℕ := [0x9a]
def f64_trunc : List ℕ := [0x9d]
def f64_load (offset : ℕ := 0) : List ℕ := 0x2b :: 0x03 :: unsignedLEB offset
def f64_store (offset : ℕ := 0) : List ℕ := 0x39 :: 0x03 :: unsignedLEB offset

def control_end : List ℕ := [0x0b]
def block_start (type_ : ℕ := valType .voidt) : List ℕ := 0x02 :: unsignedLEB type_
def block_end : List ℕ := control_end
def if_start (type_ : ℕ := valType .voidt) : List ℕ := 0x04 :: unsignedLEB type_
def if_else : List ℕ := [0x05]
def if_end : List ℕ := control_end
def loop_start (type_ : ℕ := valType .voidt) : List ℕ := 0x03 :: unsignedLEB type_
def loop_br (labelIndex : ℕ) : List ℕ := 0x0c :: unsignedLEB labelIndex
def loop_br_if (labelIndex : ℕ) : List ℕ := 0x0d :: unsignedLEB labelIndex
def loop_end : List ℕ := control_end

/-- `fn.call(index)`.  The embedded compiler looks indices up in the
function table and models a JS `undefined` result as `Option.none`; JS
coerces `undefined >>> 0` to `0` inside `unsignedLEB`, hence `getD 0`. -/
def fn_call (index : Option ℕ) : List ℕ := 0x10 :: unsignedLEB (index.getD 0)
def fn_return : List ℕ := [0x0f]
def fn_end : List ℕ := control_end

def memory_size : List ℕ := [0x3f, 0x00]
def memory_grow : List ℕ := [0x40, 0x00]
def misc_drop : List ℕ := [0x1a]
def misc_unreachable : List ℕ := [0x00]
def misc_nop : List ℕ := [0x01]

/-- Result of indexing the `nativeBinOps` object with an operator string:
a native opcode byte, the explicit `null` stored for `% ^ and or`, or JS
`undefined` for a key the object does not have. -/
inductive NativeLookup
  | opcode (b : ℕ)
  | nullv
  | undefV
deriving DecidableEq, Repr

def nativeBinOps : String → NativeLookup
  | "+" => .opcode 0xa0
  | "-" => .opcode 0xa1
  | "*" => .opcode 0xa2
  | "/" => .opcode 0xa3
  | "==" => .opcode 0x61
  | "~=" => .opcode 0x62
  | "<" => .opcode 0x63
  | ">" => .opcode 0x64
  | "<=" => .opcode 0x65
  | ">=" => .opcode 0x66
  | "%" => .nullv
  | "^" => .nullv
  | "and" => .nullv
  | "or" => .nullv
  | _ => .undefV

/-! ## src/compiler/functions.ts — signatures, indices, helper bodies -/

/-- Function signature entry (`FunctionType` in the source); `params` and
`results` hold the numeric value-type codes produced by `valType`. -/
structure FunctionType where
  name : String
  params : List ℕ
  results : List ℕ
deriving DecidableEq, Repr

def i32c : ℕ := valType .i32t
def f64c : ℕ := valType .f64t

def importFunctions : List FunctionType :=
  [ ⟨"print", [i32c], []⟩,
    ⟨"println", [i32c], []⟩,
    ⟨"to_string", [i32c], [i32c]⟩,
    ⟨"math_pow", [f64c, f64c], [f64c]⟩ ]

def definedFunctions : List FunctionType :=
  [ ⟨"main", [], []⟩,
    ⟨"mod", [f64c, f64c], [f64c]⟩,
    ⟨"is_truthy", [i32c], [i32c]⟩,
    ⟨"is_string", [i32c], [i32c]⟩,
    ⟨"is_bool", [i32c], [i32c]⟩,
    ⟨"to_number", [i32c], [i32c]⟩,
    ⟨"concat", [i32c, i32c], [i32c]⟩,
    ⟨"memory_copy", [i32c, i32c, i32c], []⟩,
    ⟨"box_number", [f64c], [i32c]⟩,
    ⟨"unbox_number", [i32c], [f64c]⟩,
    ⟨"box_bool", [i32c], [i32c]⟩,
    ⟨"box_string", [i32c, i32c], [i32c]⟩,
    ⟨"box_nil", [], [i32c]⟩,
    ⟨"ensure_space", [i32c], []⟩ ]

/-- `getFunctionTypeKey`: the string `"(p,…)=>(r,…)"` built from the
decimal renderings of the value-type codes. -/
def getFunctionTypeKey (params results : List ℕ) : String :=
  "(" ++ String.intercalate "," (params.map toString) ++ ")=>(" ++
    String.intercalate "," (results.map toString) ++ ")"

/-- One type-section entry: `0x60`, parameter count and codes, result
count and codes. -/
def functionTypeEntry (params results : List ℕ) : List ℕ :=
  0x60 :: (unsignedLEB params.length ++ params ++
    unsignedLEB results.length ++ results)

/-- `getFunctionTypes`: walk `definedFunctions ++ importFunctions ++
userDefinedFunctions`, recording each distinct type key once, in order;
returns the type entries and the key → type-index map. -/
def getFunctionTypesGo :
    List FunctionType → List (List ℕ) × List (String × ℕ) →
      List (List ℕ) × List (String × ℕ)
  | [], acc => acc
  | f :: fs, (types, indices) =>
    let key := getFunctionTypeKey f.params f.results
    if (indices.lookup key).isSome then getFunctionTypesGo fs (types, indices)
    else
      getFunctionTypesGo fs
        (types ++ [functionTypeEntry f.params f.results],
         indices ++ [(key, types.length)])

def getFunctionTypes (userDefinedFunctions : List FunctionType) :
    List (List ℕ) × List (String × ℕ) :=
  getFunctionTypesGo
    (definedFunctions ++ importFunctions ++ userDefinedFunctions) ([], [])

/-- `func()`: the name → wasm-function-index record — imports first, then
the fixed defined functions, then user-defined functions. -/
def funcTable (userDefinedFunctions : List FunctionType) : List (String × ℕ) :=
  (importFunctions ++ definedFunctions ++ userDefinedFunctions).enum.map
    fun p => (p.2.name, p.1)

/-- Indexing `func()` with a name; `none` models a JS `undefined` result
for a name that is in no list (e.g. `func().ret`, `func().pow`). -/
def funcIdx (userDefinedFunctions : List FunctionType) (name : String) :
    Option ℕ :=
  (funcTable userDefinedFunctions).lookup name

/-- Function indices as seen at module-load time, when the helper bodies
below are computed: `userDefinedFunctions` is still empty. -/
def baseFunc (name : String) : Option ℕ := funcIdx [] name

def getFunctionReturnCount (userDefinedFunctions : List FunctionType)
    (name : String) : Option ℕ :=
  ((definedFunctions ++ importFunctions ++ userDefinedFunctions).find?
    (fun f => f.name = name)).map fun f => f.results.length

/-! The fixed runtime-helper bodies.  Each is a straight transcription of
the instruction list in `src/compiler/functions.ts`; `fn.call(func().x)`
becomes `fn_call (baseFunc "x")` because the source arrays are evaluated
once at module load, before any user function exists. -/

def modFunctionBody : List ℕ :=
  local_declare [] ++
  local_get 0 ++ local_get 1 ++ local_get 0 ++ local_get 1 ++
  f64_div ++ f64_trunc ++ f64_mul ++ f64_sub ++ fn_end

def isStringFunctionBody : List ℕ :=
  local_declare [] ++
  local_get 0 ++ i32_load 0 ++ i32_const 2 ++ i32_eq ++ fn_end

def isBooleanFunctionBody : List ℕ :=
  local_declare [] ++
  local_get 0 ++ i32_load 0 ++ i32_const 3 ++ i32_eq ++ fn_end

def memoryCopyFunctionBody : List ℕ :=
  local_declare [.i32t, .i32t] ++
  i32_const 0 ++ local_set 3 ++
  block_start ++ loop_start ++
    local_get 3 ++ local_get 2 ++ i32_ge_s ++ loop_br_if 1 ++
    local_get 0 ++ local_get 3 ++ i32_add ++ i32_load8_u 0 ++ local_set 4 ++
    local_get 1 ++ local_get 3 ++ i32_add ++ local_get 4 ++ i32_store8 0 ++
    local_get 3 ++ i32_const 1 ++ i32_add ++ local_set 3 ++
    loop_br 0 ++
  loop_end ++ block_end ++ fn_end

def concatFunctionBody : List ℕ :=
  local_declare [.i32t, .i32t, .i32t, .i32t, .i32t] ++
  i32_const 16 ++ fn_call (baseFunc "ensure_space") ++
  local_get 0 ++ fn_call (baseFunc "to_string") ++ local_set 0 ++
  local_get 1 ++ fn_call (baseFunc "to_string") ++ local_set 1 ++
  local_get 0 ++ i32_const 4 ++ i32_add ++ i32_load 0 ++ local_set 2 ++
  local_get 0 ++ i32_const 8 ++ i32_add ++ i32_load 0 ++ local_set 3 ++
  local_get 1 ++ i32_const 4 ++ i32_add ++ i32_load 0 ++ local_set 4 ++
  local_get 1 ++ i32_const 8 ++ i32_add ++ i32_load 0 ++ local_set 5 ++
  global_get 0 ++ local_set 6 ++
  local_get 2 ++ local_get 6 ++ local_get 3 ++
    fn_call (baseFunc "memory_copy") ++
  local_get 4 ++ local_get 6 ++ local_get 3 ++ i32_add ++ local_get 5 ++
    fn_call (baseFunc "memory_copy") ++
  global_get 0 ++ local_get 3 ++ local_get 5 ++ i32_add ++ i32_add ++
    global_set 0 ++
  local_get 6 ++ local_get 3 ++ local_get 5 ++ i32_add ++
    fn_call (baseFunc "box_string") ++
  fn_end

/-- Byte image of `f64.const(Number.NaN)`: `setFloat64` writes the
canonical quiet NaN `0x7FF8000000000000`. -/
def f64_const_nan : List ℕ := [0x44, 0, 0, 0, 0, 0, 0, 0xf8, 0x7f]

def toNumberFunctionBody : List ℕ :=
  local_declare [] ++
  local_get 0 ++ i32_load 0 ++
  i32_const 1 ++ i32_eq ++
  if_start (valType .f64t) ++
    local_get 0 ++ i32_const 8 ++ i32_add ++ f64_load 0 ++
  if_else ++
    local_get 0 ++ i32_load 0 ++
    i32_const 3 ++ i32_eq ++
    if_start (valType .f64t) ++
      local_get 0 ++ i32_const 4 ++ i32_add ++ i32_load 0 ++
      f64_convert_i32_s ++
    if_else ++
      local_get 0 ++ i32_load 0 ++
      i32_const 2 ++ i32_eq ++
      if_start (valType .f64t) ++
        f64_const_nan ++
      if_else ++
        f64_const 0 ++
      if_end ++
    if_end ++
  if_end ++
  fn_call (baseFunc "box_number") ++ fn_end

def isTruthyFunctionBody : List ℕ :=
  local_declare [] ++
  local_get 0 ++ i32_load 0 ++
  i32_const 1 ++ i32_eq ++
  if_start (valType .i32t) ++
    local_get 0 ++ i32_const 8 ++ i32_add ++
    f64_load 0 ++ f64_const 0 ++ f64_ne ++
  if_else ++
    local_get 0 ++ i32_load 0 ++
    i32_const 3 ++ i32_eq ++
    if_start (valType .i32t) ++
      local_get 0 ++ i32_const 4 ++ i32_add ++ i32_load 0 ++
    if_else ++
      local_get 0 ++ i32_load 0 ++
      i32_const 2 ++ i32_eq ++
      if_start (valType .i32t) ++
        local_get 0 ++ i32_const 8 ++ i32_add ++ i32_load 0 ++
        i32_const 0 ++ i32_ne ++
      if_else ++
        i32_const 0 ++
      if_end ++
    if_end ++
  if_end ++
  fn_end

def ensureSpaceFunctionBody : List ℕ :=
  local_declare [.i32t] ++
  global_get 0 ++ local_set 1 ++
  local_get 1 ++ local_get 0 ++ i32_add ++
  memory_size ++ i32_const 16 ++ i32_shl ++
  i32_gt_u ++ if_start ++
    local_get 0 ++ i32_const (65536 - 1) ++ i32_add ++
    i32_const 16 ++ i32_shr_u ++
    memory_grow ++ misc_drop ++
  if_end ++ fn_end

def boxNumberFunctionBody : List ℕ :=
  local_declare [.i32t] ++
  i32_const 16 ++ fn_call (baseFunc "ensure_space") ++
  global_get 0 ++ local_set 1 ++
  local_get 1 ++ i32_const 1 ++ i32_store 0 ++
  local_get 1 ++ i32_const 8 ++ i32_add ++ local_get 0 ++ f64_store 0 ++
  global_setFromOffset 16 ++
  local_get 1 ++ fn_end

def unboxNumberFunctionBody : List ℕ :=
  local_declare [] ++
  local_get 0 ++ i32_const 8 ++ i32_add ++ f64_load 0 ++ fn_end

def boxStringFunctionBody : List ℕ :=
  local_declare [.i32t] ++
  i32_const 16 ++ fn_call (baseFunc "ensure_space") ++
  global_get 0 ++ local_set 2 ++
  local_get 2 ++ i32_const 2 ++ i32_store 0 ++
  local_get 2 ++ i32_const 4 ++ i32_add ++ local_get 0 ++ i32_store 0 ++
  local_get 2 ++ i32_const 8 ++ i32_add ++ local_get 1 ++ i32_store 0 ++
  global_setFromOffset 16 ++
  local_get 2 ++ fn_end

def boxBooleanFunctionBody : List ℕ :=
  local_declare [.i32t] ++
  i32_const 16 ++ fn_call (baseFunc "ensure_space") ++
  global_get 0 ++ local_set 1 ++
  local_get 1 ++ i32_const 3 ++ i32_store 0 ++
  local_get 1 ++ i32_const 4 ++ i32_add ++ local_get 0 ++ i32_store 0 ++
  global_setFromOffset 16 ++
  local_get 1 ++ fn_end

def boxNilFunctionBody : List ℕ :=
  local_declare [] ++
  global_get 0 ++ i32_const 0 ++ i32_store 0 ++
  global_setFromOffset 16 ++
  global_get 0 ++ fn_end

/-- JS object property assignment on a string-keyed record: overwriting
keeps the key's original insertion position, a fresh key is appended. -/
def recordSet (l : List (String × List ℕ)) (k : String) (v : List ℕ) :
    List (String × List ℕ) :=
  if (l.lookup k).isSome then
    l.map fun p => if p.1 = k then (p.1, v) else p
  else l ++ [(k, v)]

/-- `builtInFuncBodies` (`main` is filled in during compilation). -/
def builtInFuncBodies : List (String × List ℕ) :=
  [ ("main", []),
    ("mod", modFunctionBody),
    ("is_truthy", isTruthyFunctionBody),
    ("is_string", isStringFunctionBody),
    ("is_bool", isBooleanFunctionBody),
    ("to_number", toNumberFunctionBody),
    ("concat", concatFunctionBody),
    ("memory_copy", memoryCopyFunctionBody),
    ("box_number", boxNumberFunctionBody),
    ("unbox_number", unboxNumberFunctionBody),
    ("box_bool", boxBooleanFunctionBody),
    ("box_string", boxStringFunctionBody),
    ("box_nil", boxNilFunctionBody),
    ("ensure_space", ensureSpaceFunctionBody) ]

/-! ## src/compiler/state.ts — scope stack, local indices, string table -/

/-- One scope frame: identifier name → local slot index (the `VarInfo`
record of the source also repeats the name; only the index is payload). -/
abbrev Scope := List (String × ℕ)

/-- `Map.set` semantics: overwriting keeps the original position. -/
def scopeSet (sc : Scope) (k : String) (v : ℕ) : Scope :=
  if (sc.lookup k).isSome then
    sc.map fun p => if p.1 = k then (p.1, v) else p
  else sc ++ [(k, v)]

/-- The string table (`createStringTable`): literal → assigned offset, in
first-encounter order, plus the running total byte size. -/
structure StringTable where
  entries : List (String × ℕ)
  memoryOffset : ℕ
deriving DecidableEq, Repr

def StringTable.empty : StringTable := ⟨[], 0⟩

/-- `getOffset`: return the already-assigned offset, or assign the current
table size and extend the table by the literal's UTF-8 length plus one for
the terminating zero byte. -/
def StringTable.getOffset (t : StringTable) (str : String) :
    ℕ × StringTable :=
  match t.entries.lookup str with
  | some off => (off, t)
  | none =>
    (t.memoryOffset,
     ⟨t.entries ++ [(str, t.memoryOffset)],
      t.memoryOffset + (utf8Bytes str).length + 1⟩)

/-- `getBytes`: every entry's UTF-8 bytes followed by a zero byte, in
entry (= first-encounter) order. -/
def StringTable.getBytes (t : StringTable) : List ℕ :=
  (t.entries.map fun p => utf8Bytes p.1 ++ [0x00]).flatten

/-- The module-level mutable state of the code generator: the scope stack
and counters of `src/compiler/state.ts`, the user-function registry and
function-body record of `src/compiler/functions.ts`, and the string table
`compile` allocates per call and threads through `_compile`. -/
structure CState where
  scopes : List Scope
  nextLocalVarsIndex : ℕ
  scratchIndex : Option ℕ
  userFuncs : List FunctionType
  funcBodies : List (String × List ℕ)
  table : StringTable
deriving DecidableEq, Repr

/-- Position (counted from the innermost end, `0` = current scope) of the
first scope that binds `name`, walking outward — `findScopeForVar`'s
search loop. -/
def findScopePos (scopes : List Scope) (name : String) : Option ℕ :=
  (scopes.reverse.enum.find? fun p => (p.2.lookup name).isSome).map (·.1)

/-- `getVar`: `findScopeForVar(name)?.get(name)` — the innermost binding's
slot index, or `none` (JS `undefined`) when no scope binds the name (the
fallback scope of `findScopeForVar` does not contain it either). -/
def getVar (s : CState) (name : String) : Option ℕ :=
  match findScopePos s.scopes name with
  | some pos => ((s.scopes.reverse.get? pos).getD []).lookup name
  | none => none

/-! ## src/compiler.ts — errors and the compilation monad -/

/-- The payload of the `CompilerError` class. -/
structure CompilerErrorData where
  message : String
  line : ℕ
  column : ℕ
  tokenLength : ℕ
deriving DecidableEq, Repr

/-- A thrown JS exception: either an instance of `CompilerError` or a
plain `Error` (the distinction matters in `compile`'s catch clause). -/
inductive CErr
  | compiler (e : CompilerErrorData)
  | plain (message : String)
deriving DecidableEq, Repr

instance {ε α : Type} [DecidableEq ε] [DecidableEq α] :
    DecidableEq (Except ε α) := fun x y =>
  match x, y with
  | .ok a, .ok b =>
    if h : a = b then .isTrue (congrArg Except.ok h)
    else .isFalse (fun hh => h (Except.ok.inj hh))
  | .error e, .error f =>
    if h : e = f then .isTrue (congrArg Except.error h)
    else .isFalse (fun hh => h (Except.error.inj hh))
  | .ok _, .error _ => .isFalse (fun hh => Except.noConfusion hh)
  | .error _, .ok _ => .isFalse (fun hh => Except.noConfusion hh)

/-- Compilation carries the module-level mutable state and can throw. -/
abbrev CompM (α : Type) := CState → Except CErr α × CState

def okE {α : Type} (v : α) : CompM α := fun s => (.ok v, s)

def errE {α : Type} (e : CErr) : CompM α := fun s => (.error e, s)

def bindE {α β : Type} (m : CompM α) (f : α → CompM β) : CompM β := fun s =>
  match m s with
  | (.ok v, s2) => f v s2
  | (.error e, s2) => (.error e, s2)

instance : Monad CompM where
  pure := okE
  bind := bindE

def getS : CompM CState := fun s => (.ok s, s)

def modifyS (f : CState → CState) : CompM Unit := fun s => (.ok (), f s)

/-! State operations of `src/compiler/state.ts`, in monadic form. -/

def enterScope : CompM Unit :=
  modifyS fun s => { s with scopes := s.scopes ++ [[]] }

def exitScope : CompM Unit :=
  modifyS fun s => { s with scopes := s.scopes.dropLast }

/-- `declareVar(name, isLocal)`.  A duplicate `local` in the innermost
frame throws a plain `Error` (not a `CompilerError`).  Otherwise the
target frame is the innermost one for `local`, else the frame found by
`findScopeForVar` (which falls back to the innermost); an existing binding
keeps its slot index, a new one takes the next free local index.  The
source's `VarInfo | null` return is modelled as `Option ℕ` (the `none`
branch is in fact never produced). -/
def declareVar (name : String) (isLocal : Bool) : CompM (Option ℕ) :=
  fun s =>
    let currentScope := s.scopes.getLast?.getD []
    if isLocal && (currentScope.lookup name).isSome then
      (.error (.plain
        ("Variable \"" ++ name ++ "\" already declared in current scope")), s)
    else
      let posFromEnd := if isLocal then 0 else (findScopePos s.scopes name).getD 0
      let targetIdx := s.scopes.length - 1 - posFromEnd
      let target := (s.scopes.get? targetIdx).getD []
      match target.lookup name with
      | some idx =>
        (.ok (some idx),
         { s with scopes := s.scopes.mapIdx fun i sc =>
            if i = targetIdx then scopeSet sc name idx else sc })
      | none =>
        let idx := s.nextLocalVarsIndex
        (.ok (some idx),
         { s with
            scopes := s.scopes.mapIdx fun i sc =>
              if i = targetIdx then scopeSet sc name idx else sc,
            nextLocalVarsIndex := idx + 1 })

def getLocalVarsIndex : CompM ℕ := fun s => (.ok s.nextLocalVarsIndex, s)

def setLocalVarsIndex (index : ℕ) : CompM Unit :=
  modifyS fun s => { s with nextLocalVarsIndex := index }

/-- `getLocalDecls`: the local-declaration prologue — nothing, or a single
group of `nextLocalVarsIndex` boxed-`i32` locals. -/
def getLocalDecls (s : CState) : List ℕ :=
  if s.nextLocalVarsIndex = 0 then unsignedLEB 0
  else unsignedLEB 1 ++ unsignedLEB s.nextLocalVarsIndex ++ [valType .i32t]

/-- Modelled from the spec: `getScratchIndex`/`setScratchIndex` are
imported by `src/compiler.ts` but missing from the `state.ts` file in the
tree.  Per the spec (§3 "a reusable `scratch` slot", §9 "a shared
`scratch` slot is reserved per function on first use"), the first request
reserves the next free local index and later requests reuse it; the
setter (used by `_compile`'s reset with `null`) overwrites the slot. -/
def getScratchIndex : CompM ℕ := fun s =>
  match s.scratchIndex with
  | some i => (.ok i, s)
  | none =>
    (.ok s.nextLocalVarsIndex,
     { s with scratchIndex := some s.nextLocalVarsIndex,
              nextLocalVarsIndex := s.nextLocalVarsIndex + 1 })

def setScratchIndex (v : Option ℕ) : CompM Unit :=
  modifyS fun s => { s with scratchIndex := v }

/-- `strings.getOffset(str)` on the table threaded through the state. -/
def tableGetOffset (str : String) : CompM ℕ := fun s =>
  let ot := s.table.getOffset str
  (.ok ot.1, { s with table := ot.2 })

/-- `fn.call(func().name)` resolved against the current user-function
registry; an unknown name is JS `undefined`, which `unsignedLEB` coerces
to index 0 (see `fn_call`). -/
def callFn (name : String) : CompM (List ℕ) := fun s =>
  (.ok (fn_call (funcIdx s.userFuncs name)), s)

/-- `addUserDefinedFunction` (throws a plain `Error` on a duplicate). -/
def addUserDefinedFunction (name : String) (params results : List ℕ) :
    CompM Unit := fun s =>
  if s.userFuncs.any (fun f => f.name = name) then
    (.error (.plain ("Function \"" ++ name ++ "\" is already defined")), s)
  else
    (.ok (), { s with userFuncs := s.userFuncs ++ [⟨name, params, results⟩] })

def addFunctionBody (name : String) (body : List ℕ) : CompM Unit :=
  modifyS fun s => { s with funcBodies := recordSet s.funcBodies name body }

/-! ## AST node shapes (`src/syntax.ts`, reproduced inside `tokens.ts`) -/

structure Pos where
  line : ℕ
  column : ℕ
deriving DecidableEq, Repr

/-- A source `Location`; the source's `end` field is a Lean keyword and is
named `stop` here. -/
structure Loc where
  start : Pos
  stop : Pos
deriving DecidableEq, Repr

def dummyLoc : Loc := ⟨⟨0, 0⟩, ⟨0, 0⟩⟩

mutual

/-- Expressions.  Operators are the source's literal strings (the
`BINARY_OPERATORS` / `UNARY_OPERATORS` string unions). -/
inductive Expression where
  | numberLit (value : JSNum) (loc : Loc)
  | stringLit (value : String) (loc : Loc)
  | booleanLit (value : Bool) (loc : Loc)
  | identifier (name : String) (loc : Loc)
  | grouping (expression : Expression) (loc : Loc)
  | binary (operator : String) (left right : Expression) (loc : Loc)
  | unary (operator : String) (argument : Expression) (loc : Loc)
  | functionCall (name : String) (nameLoc : Loc) (args : List Expression)
      (loc : Loc)

/-- Statements.  Optional AST fields (`elifBranches?`, `elseBranch?`,
`increment?`) are lists/options; the parser only materialises the list
fields when non-empty, and the compiler treats an empty list identically
to an absent field.  `ForStatement`'s embedded `AssignStatement` is
carried as its fields (`idName`, `idLoc`, `startE`, `assignLoc`). -/
inductive Statement where
  | printS (expression : Expression) (loc : Loc)
  | printlnS (expression : Expression) (loc : Loc)
  | assign (idName : String) (idLoc : Loc) (expression : Expression)
      (loc : Loc)
  | localAssign (idName : String) (idLoc : Loc) (expression : Expression)
      (loc : Loc)
  | ifS (condition : Expression) (thenBranch : List Statement)
      (elifBranches : List (Expression × List Statement))
      (elseBranch : List Statement) (loc : Loc)
  | whileS (condition : Expression) (body : List Statement) (loc : Loc)
  | forS (idName : String) (idLoc : Loc) (startE : Expression)
      (assignLoc : Loc) (condition : Expression)
      (increment : Option Expression) (body : List Statement) (loc : Loc)
  | funcDecl (name : String) (nameLoc : Loc) (params : List (String × Loc))
      (body : List Statement) (loc : Loc)
  | returnS (expression : Expression) (loc : Loc)
  | exprStmt (expression : Expression) (loc : Loc)

end

structure Program where
  body : List Statement
  loc : Loc

mutual

/-- Modelled from the spec: companion to [`hasReturn`] (one statement). -/
def hasReturnStmt : Statement → Bool
  | .returnS _ _ => true
  | .ifS _ thenB elifs elseB _ =>
    hasReturn thenB || hasReturnElifs elifs || hasReturn elseB
  | .whileS _ body _ => hasReturn body
  | .forS _ _ _ _ _ _ body _ => hasReturn body
  | _ => false

/-- Modelled from the spec: `hasReturn` is imported by `src/compiler.ts`
from `compiler/functions.ts` but missing from that file in the tree.  The
spec says: "The function's signature is `(i32…)→(i32)` if the body
contains any `ret` (even on some paths), else `(i32…)→()`" — so we search
the statement tree of the body for a `ReturnStatement`, descending into
`if`/`elif`/`else`, `while` and `for` bodies (not into nested function
declarations, whose `ret`s belong to the nested function). -/
def hasReturn : List Statement → Bool
  | [] => false
  | stmt :: rest => hasReturnStmt stmt || hasReturn rest

def hasReturnElifs : List (Expression × List Statement) → Bool
  | [] => false
  | (_, body) :: rest => hasReturn body || hasReturnElifs rest

end

/-! ## src/compiler.ts — expression and statement compilation -/

def comparisonOps : List String := ["==", "~=", ">", ">=", "<", "<="]

/-- The native-opcode arm of the `BinaryExpression` case: unbox both
operands, apply the opcode, re-box (`box_bool` for the six comparisons,
`box_number` otherwise). -/
def nativeBinCompile (left right : List ℕ) (operator : String) (opByte : ℕ) :
    CompM (List ℕ) := do
  let s ← getS
  let call := fun n => fn_call (funcIdx s.userFuncs n)
  let ops := left ++ call "unbox_number" ++ right ++ call "unbox_number" ++
    [opByte]
  if comparisonOps.contains operator then pure (ops ++ call "box_bool")
  else pure (ops ++ call "box_number")

/-- The error a compile function returns when the modelling fuel runs
out; unreachable for the fuel the wrappers below supply. -/
def outOfFuelErr : CErr := .plain "out of fuel (modelling artifact)"

/-- `for (const param of params) declareVar(param.name, true)`. -/
def declareParams : List (String × Loc) → CompM Unit
  | [] => pure ()
  | p :: rest => do
    let _ ← declareVar p.1 true
    declareParams rest

mutual

/-- `compileExpression` (the `strings` argument of the source is the
table inside the threaded state). -/
def compileExpressionF : ℕ → Expression → CompM (List ℕ)
  | 0, _ => errE outOfFuelErr
  | fuel + 1, .stringLit v _ => do
    let offset ← tableGetOffset v
    let length := (utf8Bytes v).length
    let callBox ← callFn "box_string"
    pure (i32_const offset ++ i32_const length ++ callBox)
  | fuel + 1, .numberLit v _ => do
    let callBox ← callFn "box_number"
    pure (f64_const v ++ callBox)
  | fuel + 1, .booleanLit v _ => do
    let callBox ← callFn "box_bool"
    pure (i32_const (if v then 1 else 0) ++ callBox)
  | fuel + 1, .identifier name loc => fun s =>
    match getVar s name with
    | none =>
      (.error (.compiler ⟨"Variable \"" ++ name ++ "\" is not declared",
        loc.start.line, loc.start.column, name.length⟩), s)
    | some idx => (.ok (local_get idx), s)
  | fuel + 1, .grouping e _ => compileExpressionF fuel e
  | fuel + 1, .binary operator l r _ => do
    let left ← compileExpressionF fuel l
    let right ← compileExpressionF fuel r
    match nativeBinOps operator with
    | .opcode b => nativeBinCompile left right operator b
    | .undefV =>
      -- `nativeOp !== null` also admits JS `undefined` (an operator string
      -- that is no key of `nativeBinOps`); the pushed `undefined` byte is
      -- coerced to 0 when the array becomes a `Uint8Array`
      nativeBinCompile left right operator 0
    | .nullv =>
      match operator with
      | "%" => do
        let s ← getS
        let call := fun n => fn_call (funcIdx s.userFuncs n)
        pure (left ++ call "unbox_number" ++ right ++ call "unbox_number" ++
          call "mod" ++ call "box_number")
      | "^" => do
        -- `func().pow` is `undefined` in this revision (no function named
        -- `pow` is registered), hence `fn_call none`
        let s ← getS
        let call := fun n => fn_call (funcIdx s.userFuncs n)
        pure (left ++ call "unbox_number" ++ right ++ call "unbox_number" ++
          call "pow" ++ call "box_number")
      | "and" => do
        let scratch ← getScratchIndex
        let callTruthy ← callFn "is_truthy"
        pure (left ++ local_set scratch ++ local_get scratch ++ callTruthy ++
          if_start (valType .i32t) ++ right ++ if_else ++
          local_get scratch ++ if_end)
      | "or" => do
        let scratch ← getScratchIndex
        let callTruthy ← callFn "is_truthy"
        pure (left ++ local_set scratch ++ local_get scratch ++ callTruthy ++
          if_start (valType .i32t) ++ local_get scratch ++ if_else ++
          right ++ if_end)
      | _ => errE (.plain ("Unsupported binary operator: " ++ operator))
  -- the UnaryExpression case: the source switches on the operator and,
  -- for `-`, further on the argument kind (literal negation folding);
  -- both switches appear as nested patterns here
  | fuel + 1, .unary "+" arg _ => compileExpressionF fuel arg
  | fuel + 1, .unary "-" (.numberLit v _) _ => do
    let callBox ← callFn "box_number"
    pure (f64_const (-v) ++ callBox)
  | fuel + 1, .unary "-" arg _ => do
    let a ← compileExpressionF fuel arg
    let s ← getS
    let call := fun n => fn_call (funcIdx s.userFuncs n)
    pure (a ++ call "unbox_number" ++ f64_neg ++ call "box_number")
  | fuel + 1, .unary "~" arg _ => do
    let a ← compileExpressionF fuel arg
    let s ← getS
    let call := fun n => fn_call (funcIdx s.userFuncs n)
    pure (a ++ call "unbox_number" ++ f64_const 0 ++ f64_eq ++
      call "box_bool")
  | fuel + 1, .unary operator _ _ =>
    errE (.plain ("Unsupported unary operator: " ++ operator))
  | fuel + 1, .functionCall name nameLoc args _ => fun s =>
    match s.userFuncs.find? (fun f => f.name = name) with
    | none =>
      (.error (.compiler ⟨"Function \"" ++ name ++ "\" is not defined",
        nameLoc.start.line, nameLoc.start.column, name.length⟩), s)
    | some f =>
      if f.params.length ≠ args.length then
        (.error (.compiler
          ⟨"Function \"" ++ name ++ "\" expects " ++
             toString f.params.length ++ " arguments, but got " ++
             toString args.length,
           nameLoc.start.line, nameLoc.start.column, name.length⟩), s)
      else
        (do
          let argBytes ← compileArgsF fuel args
          let c ← callFn name
          pure (argBytes ++ c)) s

/-- `args.flatMap((arg) => compileExpression(arg, strings))`. -/
def compileArgsF : ℕ → List Expression → CompM (List ℕ)
  | 0, _ => errE outOfFuelErr
  | fuel + 1, [] => pure []
  | fuel + 1, e :: rest => do
    let b ← compileExpressionF fuel e
    let bs ← compileArgsF fuel rest
    pure (b ++ bs)

def compileStatementsF : ℕ → List Statement → CompM (List ℕ)
  | 0, _ => errE outOfFuelErr
  | fuel + 1, [] => pure []
  | fuel + 1, stmt :: rest => do
    let b ← compileStatementF fuel stmt
    let bs ← compileStatementsF fuel rest
    pure (b ++ bs)

/-- The `elifBranches` fold of the `IfStatement` case: the source walks
the branches from the last to the first, wrapping the accumulated else
block; here the recursion first processes the tail (so the last branch is
compiled first, as in the source) and then wraps its result. -/
def compileElifsF :
    ℕ → List (Expression × List Statement) → List ℕ → CompM (List ℕ)
  | 0, _, _ => errE outOfFuelErr
  | fuel + 1, [], elseBlock => pure elseBlock
  | fuel + 1, (c, b) :: rest, elseBlock => do
    let inner ← compileElifsF fuel rest elseBlock
    let condition ← compileExpressionF fuel c
    enterScope
    let branch ← compileStatementsF fuel b
    exitScope
    let callTruthy ← callFn "is_truthy"
    pure (condition ++ callTruthy ++ if_start (valType .voidt) ++ branch ++
      if_else ++ inner ++ if_end)

def compileStatementF : ℕ → Statement → CompM (List ℕ)
  | 0, _ => errE outOfFuelErr
  | fuel + 1, .printlnS e _ => do
    let b ← compileExpressionF fuel e
    let c ← callFn "println"
    pure (b ++ c)
  | fuel + 1, .printS e _ => do
    let b ← compileExpressionF fuel e
    let c ← callFn "print"
    pure (b ++ c)
  | fuel + 1, .localAssign idName idLoc e _ => do
    -- shared source case with AssignStatement; isLocal = true
    let b ← compileExpressionF fuel e
    let varInfo ← declareVar idName true
    match varInfo with
    | none =>
      errE (.compiler ⟨"Variable \"" ++ idName ++ "\" is not declared",
        idLoc.start.line, idLoc.start.column, idName.length⟩)
    | some idx => pure (b ++ local_set idx)
  | fuel + 1, .assign idName idLoc e _ => do
    -- shared source case with LocalAssignStatement; isLocal = false
    let b ← compileExpressionF fuel e
    let varInfo ← declareVar idName false
    match varInfo with
    | none =>
      errE (.compiler ⟨"Variable \"" ++ idName ++ "\" is not declared",
        idLoc.start.line, idLoc.start.column, idName.length⟩)
    | some idx => pure (b ++ local_set idx)
  | fuel + 1, .ifS cond thenB elifs elseB _ => do
    let condition ← compileExpressionF fuel cond
    enterScope
    let thenBranch ← compileStatementsF fuel thenB
    exitScope
    let callTruthy ← callFn "is_truthy"
    let bytes := condition ++ callTruthy ++ if_start (valType .voidt) ++
      thenBranch
    let elseBlock ←
      if elseB.isEmpty then pure ([] : List ℕ)
      else do
        enterScope
        let eb ← compileStatementsF fuel elseB
        exitScope
        pure eb
    let wrapped ← compileElifsF fuel elifs elseBlock
    pure (bytes ++ if_else ++ wrapped ++ if_end)
  | fuel + 1, .whileS cond body _ => do
    enterScope
    let condition ← compileExpressionF fuel cond
    enterScope
    let bodyBytes ← compileStatementsF fuel body
    exitScope
    exitScope
    let callTruthy ← callFn "is_truthy"
    pure (block_start (valType .voidt) ++ loop_start (valType .voidt) ++
      condition ++ callTruthy ++ i32_eqz ++ loop_br_if 1 ++ bodyBytes ++
      loop_br 0 ++ loop_end ++ block_end)
  | fuel + 1, .forS idName idLoc startE _assignLoc cond inc body _ => do
    enterScope
    -- the source compiles the statement's embedded AssignStatement via
    -- `compileStatement(assignment)`; that case is inlined here
    -- (isLocal = false), with the identical error payload
    let b ← compileExpressionF fuel startE
    let varInfo ← declareVar idName false
    let init ←
      match varInfo with
      | none =>
        errE (.compiler ⟨"Variable \"" ++ idName ++ "\" is not declared",
          idLoc.start.line, idLoc.start.column, idName.length⟩)
      | some idx => pure (b ++ local_set idx)
    let s1 ← getS
    match getVar s1 idName with
    | none =>
      errE (.compiler ⟨"Variable \"" ++ idName ++ "\" is not declared",
        idLoc.start.line, idLoc.start.column, idName.length⟩)
    | some loopVar => do
      enterScope
      let condBytes ← compileExpressionF fuel cond
      let step ←
        match inc with
        | some e => compileExpressionF fuel e
        | none => do
          let c ← callFn "box_number"
          pure (f64_const 1 ++ c)
      let loopBody ← compileStatementsF fuel body
      exitScope
      exitScope
      let isDescending ← getScratchIndex
      let s ← getS
      let call := fun n => fn_call (funcIdx s.userFuncs n)
      pure (init ++
        step ++ call "unbox_number" ++ f64_const 0 ++ f64_lt ++
        local_set isDescending ++
        block_start (valType .voidt) ++ loop_start (valType .voidt) ++
          local_get isDescending ++
          if_start (valType .i32t) ++
            local_get loopVar ++ call "unbox_number" ++
            condBytes ++ call "unbox_number" ++ f64_lt ++
          if_else ++
            local_get loopVar ++ call "unbox_number" ++
            condBytes ++ call "unbox_number" ++ f64_gt ++
          if_end ++
          loop_br_if 1 ++
          loopBody ++
          local_get loopVar ++ call "unbox_number" ++
          step ++ call "unbox_number" ++ f64_add ++ call "box_number" ++
          local_set loopVar ++
          loop_br 0 ++
        loop_end ++ block_end)
  | fuel + 1, .funcDecl name nameLoc params body _ => do
    let s0 ← getS
    if s0.userFuncs.any (fun f => f.name = name) then
      errE (.compiler ⟨"Function \"" ++ name ++ "\" is already defined",
        nameLoc.start.line, nameLoc.start.column, name.length⟩)
    else do
      let paramTypes := params.map fun _ => valType .i32t
      let returnType := if hasReturn body then [valType .i32t] else []
      addUserDefinedFunction name paramTypes returnType
      let prevIndex ← getLocalVarsIndex
      setLocalVarsIndex 0
      enterScope
      declareParams params
      let bodyBytes ← compileStatementsF fuel body
      exitScope
      let s1 ← getS
      let localDecls := getLocalDecls s1
      setLocalVarsIndex prevIndex
      addFunctionBody name (localDecls ++ bodyBytes ++ control_end)
      pure []
  | fuel + 1, .returnS e _ => do
    let b ← compileExpressionF fuel e
    let c ← callFn "ret"
    pure (b ++ c)
  | fuel + 1, .exprStmt e _ => compileExpressionF fuel e

end
/-! Fuel for the structural recursion over the AST: every recursive call
descends into a strict subterm whose size below is strictly smaller, so
a nesting chain is no deeper than the size of the root and the fuel the
wrappers supply never runs out. -/

mutual

def sizeE : Expression → ℕ
  | .numberLit _ _ => 1
  | .stringLit _ _ => 1
  | .booleanLit _ _ => 1
  | .identifier _ _ => 1
  | .grouping e _ => 1 + sizeE e
  | .binary _ l r _ => 1 + sizeE l + sizeE r
  | .unary _ a _ => 1 + sizeE a
  | .functionCall _ _ args _ => 1 + sizeEL args

def sizeEL : List Expression → ℕ
  | [] => 1
  | e :: r => 1 + sizeE e + sizeEL r

end

mutual

def sizeS : Statement → ℕ
  | .printS e _ => 1 + sizeE e
  | .printlnS e _ => 1 + sizeE e
  | .assign _ _ e _ => 1 + sizeE e
  | .localAssign _ _ e _ => 1 + sizeE e
  | .ifS c t el els _ => 1 + sizeE c + sizeSL t + sizeElifL el + sizeSL els
  | .whileS c b _ => 1 + sizeE c + sizeSL b
  | .forS _ _ st _ c inc b _ =>
    1 + sizeE st + sizeE c + sizeEOpt inc + sizeSL b
  | .funcDecl _ _ _ b _ => 1 + sizeSL b
  | .returnS e _ => 1 + sizeE e
  | .exprStmt e _ => 1 + sizeE e

def sizeSL : List Statement → ℕ
  | [] => 1
  | s :: r => 1 + sizeS s + sizeSL r

def sizeElifL : List (Expression × List Statement) → ℕ
  | [] => 1
  | (c, b) :: r => 1 + sizeE c + sizeSL b + sizeElifL r

def sizeEOpt : Option Expression → ℕ
  | none => 1
  | some e => 1 + sizeE e

end

def compileExpression (e : Expression) : CompM (List ℕ) :=
  compileExpressionF (sizeE e + 1) e

def compileStatements (l : List Statement) : CompM (List ℕ) :=
  compileStatementsF (sizeSL l + 1) l

def compileStatement (stmt : Statement) : CompM (List ℕ) :=
  compileStatementF (sizeS stmt + 1) stmt


/-! ## src/compiler.ts — module assembly -/

/-- `mainFuncBody`: compile the program body, then prepend the (now
final) local declarations and append `end`. -/
def mainFuncBody (ast : Program) : CompM (List ℕ) := do
  let instructions ← compileStatements ast.body
  let s ← getS
  pure (getLocalDecls s ++ instructions ++ control_end)

def liftE {α : Type} (x : Except CErr α) : CompM α := fun s => (x, s)

/-- The per-function type-index lookups of the function section; a missing
key throws a plain `Error` built by `msg`. -/
def typeIndicesFor (indices : List (String × ℕ)) (msg : String → String) :
    List FunctionType → Except CErr (List ℕ)
  | [] => .ok []
  | f :: rest =>
    match indices.lookup (getFunctionTypeKey f.params f.results) with
    | none => .error (.plain (msg f.name))
    | some typeIndex =>
      match typeIndicesFor indices msg rest with
      | .error e => .error e
      | .ok bs => .ok (unsignedLEB typeIndex ++ bs)

/-- The import-section entries: `env`, the import name, kind `0x00` and
the type index. -/
def importEntriesFor (indices : List (String × ℕ)) :
    List FunctionType → Except CErr (List ℕ)
  | [] => .ok []
  | f :: rest =>
    match indices.lookup (getFunctionTypeKey f.params f.results) with
    | none => .error (.plain ("Type not found for import \"" ++ f.name ++ "\""))
    | some typeIndex =>
      match importEntriesFor indices rest with
      | .error e => .error e
      | .ok bs =>
        .ok (encodeString "env" ++ encodeString f.name ++ [0x00] ++
          unsignedLEB typeIndex ++ bs)

/-- The code-section bodies for a function list, each prefixed with its
byte length; a missing body throws a plain `Error`. -/
def bodiesFor (functionBodies : List (String × List ℕ)) :
    List FunctionType → Except CErr (List ℕ)
  | [] => .ok []
  | f :: rest =>
    match functionBodies.lookup f.name with
    | none =>
      .error (.plain ("Function body for \"" ++ f.name ++ "\" not found"))
    | some body =>
      match bodiesFor functionBodies rest with
      | .error e => .error e
      | .ok bs => .ok (unsignedLEB body.length ++ body ++ bs)

/-- `_compile`: reset the module-level state, compile `main`, then emit
the sections in the required order (the source constructs the function
section before the type section but concatenates them correctly). -/
def _compile (ast : Program) : CompM (List ℕ) := do
  -- Reset state for each compilation: clearScopes(), setLocalVarsIndex(0),
  -- setScratchIndex(null), clearUserDefinedFunctions(), resetFunctionBodies()
  modifyS fun s =>
    { s with
        scopes := [[]],
        nextLocalVarsIndex := 0,
        scratchIndex := none,
        userFuncs := [],
        funcBodies := builtInFuncBodies }
  -- WASM magic + version
  let header : List ℕ := [0x00, 0x61, 0x73, 0x6d, 0x01, 0x00, 0x00, 0x00]
  let mainFunc ← mainFuncBody ast
  addFunctionBody "main" mainFunc
  let s ← getS
  let ft := getFunctionTypes s.userFuncs
  let functionTypes := ft.1
  let functionIndices := ft.2
  -- (a console.log of the tables is dropped)
  let definedIdxBytes ← liftE (typeIndicesFor functionIndices
    (fun n => "Type not found for function \"" ++ n ++ "\"") definedFunctions)
  let userIdxBytes ← liftE (typeIndicesFor functionIndices
    (fun n => "Type not found for user-defined function \"" ++ n ++ "\"")
    s.userFuncs)
  let funcSection := emitSection 3
    (unsignedLEB (definedFunctions.length + s.userFuncs.length) ++
      definedIdxBytes ++ userIdxBytes)
  let typeSection := emitSection 1
    (unsignedLEB functionTypes.length ++ functionTypes.flatten)
  let importEntries ← liftE (importEntriesFor functionIndices importFunctions)
  let importSection := emitSection 2
    (unsignedLEB importFunctions.length ++ importEntries)
  -- Memory section: 1 memory, min-only limits, min = 1 page
  let memorySection := emitSection 5 [0x01, 0x00, 0x01]
  -- Export section: "main" (function) and "memory"
  let exportSection := emitSection 7
    (unsignedLEB 2 ++
      encodeString "main" ++ [0x00] ++
      unsignedLEB ((funcIdx s.userFuncs "main").getD 0) ++
      encodeString "memory" ++ [0x02, 0x00])
  let definedBodies ← liftE (bodiesFor s.funcBodies definedFunctions)
  let userBodies ← liftE (bodiesFor s.funcBodies s.userFuncs)
  let codeSection := emitSection 10
    (unsignedLEB s.funcBodies.length ++ definedBodies ++ userBodies)
  let stringBytes := s.table.getBytes
  let dataSection := emitSection 11
    ([0x01, 0x00] ++ i32_const 0 ++ control_end ++
      unsignedLEB stringBytes.length ++ stringBytes)
  -- Global section (kept last in the source to read the string length):
  -- one mutable i32 initialised to stringBytes.length + 1
  let globalSection := emitSection 6
    ([0x01, valType .i32t, 0x01] ++ i32_const (stringBytes.length + 1) ++
      control_end)
  pure (header ++ typeSection ++ importSection ++ funcSection ++
    memorySection ++ globalSection ++ exportSection ++ codeSection ++
    dataSection)

/-- The record `compile` returns (`meta.strings` flattened to `strings`). -/
structure CompileResult where
  bytes : List ℕ
  error : Option CompilerErrorData
  strings : List ℕ
deriving DecidableEq, Repr

/-- `compile(ast)`: allocate a fresh string table, run `_compile`, and
catch.  Only a thrown `CompilerError` instance lands in the `error` field;
any other exception is merely logged (`console.error`) and leaves `error`
null while `bytes` stays empty.  The `!ast || ast.type !== "Program"`
guard cannot fire for a well-typed `Program` value.  The caller-visible
module state (everything `_compile` mutates) is taken and returned
explicitly. -/
def compile (ast : Program) (callerState : CState) :
    CompileResult × CState :=
  let s0 : CState := { callerState with table := StringTable.empty }
  match _compile ast s0 with
  | (.ok bytes, s1) =>
    ({ bytes := bytes, error := none, strings := s1.table.getBytes }, s1)
  | (.error (.compiler e), s1) =>
    ({ bytes := [], error := some e, strings := s1.table.getBytes }, s1)
  | (.error (.plain _), s1) =>
    ({ bytes := [], error := none, strings := s1.table.getBytes }, s1)

/-- A convenient fully-reset initial state (what the module-level state
looks like right after loading `state.ts` and `functions.ts`). -/
def freshState : CState :=
  { scopes := [[]],
    nextLocalVarsIndex := 0,
    scratchIndex := none,
    userFuncs := [],
    funcBodies := builtInFuncBodies,
    table := StringTable.empty }

/-! ## src/tokens.ts — token kinds, keyword and punctuation tables -/

/-- The token kinds the lexer/parser revision uses.  The source's
`TokenType` string union omits `"EOF"` even though the lexer emits it;
`jsUndefined` models the JS `undefined` stored when `tokenTypes` is
indexed with a character it has no entry for (e.g. `"~"`). -/
inductive TokenType
  | LPAREN | RPAREN | COMMA | COMMENT | DOT
  | PLUS | MINUS | STAR | SLASH | CARET | MOD | NOT
  | GT | LT | GE | LE | NE | EQEQ | ASSIGN
  | IDENTIFIER | STRING | NUMBER
  | IF | THEN | ELSE | ELIF | TRUE | FALSE | AND | OR
  | WHILE | DO | FOR | FUNC | END
  | PRINT | PRINTLN | RET | LOCAL
  | EOF
  | jsUndefined
deriving DecidableEq, Repr

/-- A lexer token; the source's `end` field is named `stop` here. -/
structure Token where
  type : TokenType
  value : String
  line : ℕ
  column : ℕ
  start : ℕ
  stop : ℕ
deriving DecidableEq, Repr

/-- The `keywords` record: lexeme → keyword kind (JS `undefined`, i.e.
`none`, for every other lexeme).  Note this revision of the table has no
`elif` entry, so `elif` lexes as an `IDENTIFIER` and the parser's `ELIF`
comparisons never succeed. -/
def keywords : String → Option TokenType
  | "if" => some .IF
  | "then" => some .THEN
  | "else" => some .ELSE
  | "true" => some .TRUE
  | "false" => some .FALSE
  | "and" => some .AND
  | "or" => some .OR
  | "while" => some .WHILE
  | "do" => some .DO
  | "for" => some .FOR
  | "func" => some .FUNC
  | "end" => some .END
  | "print" => some .PRINT
  | "println" => some .PRINTLN
  | "ret" => some .RET
  | "local" => some .LOCAL
  | _ => none

/-- The `tokenTypes` record: punctuation/operator lexeme → kind.  Note
the table pairs `"!"`/`"!="` with `NOT`/`NE`; it has no `"~"` or `"~="`
entry, so those lexer lookups produce JS `undefined`. -/
def tokenTypes : String → Option TokenType
  | "(" => some .LPAREN
  | ")" => some .RPAREN
  | "," => some .COMMA
  | "." => some .DOT
  | "+" => some .PLUS
  | "-" => some .MINUS
  | "*" => some .STAR
  | "/" => some .SLASH
  | "^" => some .CARET
  | "%" => some .MOD
  | "!" => some .NOT
  | ">" => some .GT
  | "<" => some .LT
  | ">=" => some .GE
  | "<=" => some .LE
  | "!=" => some .NE
  | "==" => some .EQEQ
  | ":=" => some .ASSIGN
  | _ => none

/-- `tokenTypes[x]` as the lexer stores it into a token: a missing entry
is JS `undefined`. -/
def tokTypeFor (lexeme : String) : TokenType :=
  (tokenTypes lexeme).getD .jsUndefined

/-! ## src/lexer.ts — the tokenizer

The source walks the string with an index; the string is represented as
its character list.  Position state `{line, column, current}` and the
character classifiers are transcribed directly. -/

def isAlpha (c : Char) : Bool :=
  ('a' ≤ c && c ≤ 'z') || ('A' ≤ c && c ≤ 'Z') || c == '_'

def isDigit (c : Char) : Bool := '0' ≤ c && c ≤ '9'

def isAlphaNumeric (c : Char) : Bool := isAlpha c || isDigit c

def isWhitespace (c : Char) : Bool := c == ' ' || c == '\t' || c == '\r'

def isNewline (c : Char) : Bool := c == '\n'

def isEndOfFile (c : Char) : Bool := c == Char.ofNat 0

structure LexPos where
  line : ℕ
  column : ℕ
  current : ℕ
deriving DecidableEq, Repr

/-- `peek(source, curr)`: the character at `curr`, or `"\0"` past the
end. -/
def strPeek (source : List Char) (curr : ℕ) : Char :=
  if curr < source.length then source.getD curr (Char.ofNat 0)
  else Char.ofNat 0

def strLookahead (source : List Char) (curr n : ℕ) : Char :=
  if curr + n < source.length then source.getD (curr + n) (Char.ofNat 0)
  else Char.ofNat 0

def strMatch (source : List Char) (curr : ℕ) (c : Char) : Bool :=
  strPeek source curr == c

/-- `advance`: step one character, tracking line/column. -/
def lexAdvance (source : List Char) (curr line column : ℕ) : LexPos :=
  let c := strPeek source curr
  if isNewline c then ⟨line + 1, 1, curr + 1⟩
  else ⟨line, column + 1, curr + 1⟩

structure TokenError where
  line : ℕ
  column : ℕ
  message : String
deriving DecidableEq, Repr

structure TokenizeResult where
  tokens : List Token
  error : Option TokenError
deriving DecidableEq, Repr

/-- The string-literal content loop: consume verbatim up to (excluding)
the matching quote or end of input.  (Note: no escape processing of any
kind happens here — backslashes are kept as-is.) -/
def lexStringGo : ℕ → List Char → Char → LexPos → String → String × LexPos
  | 0, _, _, pos, acc => (acc, pos)
  | fuel + 1, src, quote, pos, acc =>
    if !(isEndOfFile (strPeek src pos.current)) &&
        !(strMatch src pos.current quote) then
      lexStringGo fuel src quote
        (lexAdvance src pos.current pos.line pos.column)
        (acc.push (strPeek src pos.current))
    else (acc, pos)

/-- The comment loop: consume up to (excluding) the newline. -/
def lexCommentGo : ℕ → List Char → LexPos → String → String × LexPos
  | 0, _, pos, acc => (acc, pos)
  | fuel + 1, src, pos, acc =>
    if !(isEndOfFile (strPeek src pos.current)) &&
        !(strMatch src pos.current '\n') then
      lexCommentGo fuel src
        (lexAdvance src pos.current pos.line pos.column)
        (acc.push (strPeek src pos.current))
    else (acc, pos)

/-- The number loop; `.error pos` is the `"Unexpected character '.' in
number"` exit with the position of the offending dot. -/
def lexNumberGo : ℕ → List Char → LexPos → String →
    Except LexPos (String × LexPos)
  | 0, _, pos, acc => .ok (acc, pos)
  | fuel + 1, src, pos, acc =>
    if !(isEndOfFile (strPeek src pos.current)) &&
        (isDigit (strPeek src pos.current) || strMatch src pos.current '.') then
      if strMatch src pos.current '.' &&
          !(isDigit (strLookahead src pos.current 1)) then
        .error pos
      else
        lexNumberGo fuel src
          (lexAdvance src pos.current pos.line pos.column)
          (acc.push (strPeek src pos.current))
    else .ok (acc, pos)

/-- The identifier loop. -/
def lexIdentGo : ℕ → List Char → LexPos → String → String × LexPos
  | 0, _, pos, acc => (acc, pos)
  | fuel + 1, src, pos, acc =>
    if !(isEndOfFile (strPeek src pos.current)) &&
        isAlphaNumeric (strPeek src pos.current) then
      lexIdentGo fuel src
        (lexAdvance src pos.current pos.line pos.column)
        (acc.push (strPeek src pos.current))
    else (acc, pos)

/-- `addToken` with the defaults every call site uses: explicit `start`
and `column` (where given), `line` and `end` from the current position. -/
def mkToken (type : TokenType) (value : String) (pos : LexPos)
    (start column : ℕ) : Token :=
  ⟨type, value, pos.line, column, start, pos.current⟩

/-- A token whose fields all come from the defaults (the `EOF` case). -/
def mkTokenDefault (type : TokenType) (value : String) (pos : LexPos) :
    Token :=
  ⟨type, value, pos.line, pos.column, pos.current - value.length, pos.current⟩

/-- The main tokenizer loop (`while (!isEndOfFile(peek(src, current)))`);
fuel is the remaining source length plus one, enough because every
iteration advances at least one character. -/
def tokenizeGo : ℕ → List Char → LexPos → List Token → TokenizeResult
  | 0, _, _, tokens => ⟨tokens, none⟩
  | fuel + 1, src, pos, tokens =>
    let ch := strPeek src pos.current
    if isEndOfFile ch then
      ⟨tokens ++ [mkTokenDefault .EOF "" pos], none⟩
    else
      -- mark the start and column
      let start := pos.current
      let column := pos.column
      if ch == ' ' || ch == '\t' || ch == '\r' || ch == '\n' then
        tokenizeGo fuel src (lexAdvance src pos.current pos.line pos.column)
          tokens
      else if ch == '(' || ch == ')' || ch == '.' || ch == ',' || ch == '+' ||
          ch == '*' || ch == '^' || ch == '/' || ch == '%' then
        let pos2 := lexAdvance src pos.current pos.line pos.column
        tokenizeGo fuel src pos2
          (tokens ++ [mkToken (tokTypeFor (String.singleton ch))
            (String.singleton ch) pos2 start column])
      else if ch == '\'' || ch == '"' then
        let quotePos := pos
        let pos2 := lexAdvance src pos.current pos.line pos.column
        let vp := lexStringGo (fuel + 1) src ch pos2 ""
        if isEndOfFile (strPeek src vp.2.current) then
          ⟨tokens ++ [mkTokenDefault .EOF "" vp.2],
           some ⟨quotePos.line, quotePos.column,
             "Unterminated string literal at line"⟩⟩
        else
          let pos3 := lexAdvance src vp.2.current vp.2.line vp.2.column
          tokenizeGo fuel src pos3
            (tokens ++ [mkToken .STRING vp.1 pos3 start column])
      else if ch == '>' || ch == '<' then
        if strLookahead src pos.current 1 == '=' then
          let pos2 := lexAdvance src pos.current pos.line pos.column
          let pos3 := lexAdvance src pos2.current pos2.line pos2.column
          tokenizeGo fuel src pos3
            (tokens ++ [mkToken (tokTypeFor (String.singleton ch ++ "="))
              (String.singleton ch ++ "=") pos3 start column])
        else
          let pos2 := lexAdvance src pos.current pos.line pos.column
          tokenizeGo fuel src pos2
            (tokens ++ [mkToken (tokTypeFor (String.singleton ch))
              (String.singleton ch) pos2 start column])
      else if ch == '~' || ch == ':' || ch == '=' then
        if ch == '~' && !(strLookahead src pos.current 1 == '=') then
          let pos2 := lexAdvance src pos.current pos.line pos.column
          tokenizeGo fuel src pos2
            (tokens ++ [mkToken (tokTypeFor (String.singleton ch))
              (String.singleton ch) pos2 start column])
        else if !(strLookahead src pos.current 1 == '=') then
          ⟨tokens ++ [mkTokenDefault .EOF "" pos],
           some ⟨pos.line, pos.column,
             "Unexpected character \x27" ++ String.singleton ch ++ "\x27"⟩⟩
        else
          let pos2 := lexAdvance src pos.current pos.line pos.column
          let pos3 := lexAdvance src pos2.current pos2.line pos2.column
          tokenizeGo fuel src pos3
            (tokens ++ [mkToken (tokTypeFor (String.singleton ch ++ "="))
              (String.singleton ch ++ "=") pos3 start column])
      else if ch == '-' then
        if !(strLookahead src pos.current 1 == '-') then
          let pos2 := lexAdvance src pos.current pos.line pos.column
          tokenizeGo fuel src pos2
            (tokens ++ [mkToken .MINUS (String.singleton ch) pos2 start column])
        else
          let vp := lexCommentGo (fuel + 1) src pos ""
          tokenizeGo fuel src vp.2
            (tokens ++ [mkToken .COMMENT vp.1 vp.2 start column])
      else if isDigit ch then
        match lexNumberGo (fuel + 1) src pos "" with
        | .error errPos =>
          ⟨tokens ++ [mkTokenDefault .EOF "" errPos],
           some ⟨errPos.line, errPos.column,
             "Unexpected character \x27.\x27 in number"⟩⟩
        | .ok vp =>
          tokenizeGo fuel src vp.2
            (tokens ++ [mkToken .NUMBER vp.1 vp.2 start column])
      else if isAlpha ch then
        let vp := lexIdentGo (fuel + 1) src pos ""
        let type := (keywords vp.1).getD .IDENTIFIER
        tokenizeGo fuel src vp.2
          (tokens ++ [mkToken type vp.1 vp.2 start column])
      else
        ⟨tokens ++ [mkTokenDefault .EOF "" pos],
         some ⟨pos.line, pos.column,
           "Unexpected character \x27" ++ String.singleton ch ++ "\x27"⟩⟩

/-- `tokenize(src)`. -/
def tokenize (src : String) : TokenizeResult :=
  tokenizeGo (src.length + 1) src.data ⟨1, 1, 0⟩ []

/-! ## src/parser.ts — recursive-descent parser -/

/-- The decimal/`toString` name of a token type, as it appears inside
error-message template strings (`jsUndefined` renders as JS `undefined`
does). -/
def tokenTypeName : TokenType → String
  | .LPAREN => "LPAREN" | .RPAREN => "RPAREN" | .COMMA => "COMMA"
  | .COMMENT => "COMMENT" | .DOT => "DOT" | .PLUS => "PLUS"
  | .MINUS => "MINUS" | .STAR => "STAR" | .SLASH => "SLASH"
  | .CARET => "CARET" | .MOD => "MOD" | .NOT => "NOT"
  | .GT => "GT" | .LT => "LT" | .GE => "GE" | .LE => "LE"
  | .NE => "NE" | .EQEQ => "EQEQ" | .ASSIGN => "ASSIGN"
  | .IDENTIFIER => "IDENTIFIER" | .STRING => "STRING" | .NUMBER => "NUMBER"
  | .IF => "IF" | .THEN => "THEN" | .ELSE => "ELSE" | .TRUE => "TRUE"
  | .FALSE => "FALSE" | .AND => "AND" | .OR => "OR" | .WHILE => "WHILE"
  | .DO => "DO" | .FOR => "FOR" | .FUNC => "FUNC" | .END => "END"
  | .PRINT => "PRINT" | .PRINTLN => "PRINTLN" | .RET => "RET"
  | .LOCAL => "LOCAL" | .ELIF => "ELIF" | .EOF => "EOF"
  | .jsUndefined => "undefined"

/-- Modelled from the spec: `symbolForTokenType` is imported by
`src/parser.ts` from `tokens.ts` but missing from that file in the tree.
The spec's grammar and operator table (§4.2, §6) pair each operator token
with its surface symbol — in particular `~=` is the inequality symbol and
`and`/`or` are the word operators — and the unary tokens `+ - ~` map to
themselves.  Every other token type has no symbol (JS `undefined`). -/
def symbolForTokenType : TokenType → Option String
  | .PLUS => some "+"
  | .MINUS => some "-"
  | .STAR => some "*"
  | .SLASH => some "/"
  | .CARET => some "^"
  | .MOD => some "%"
  | .EQEQ => some "=="
  | .NE => some "~="
  | .GT => some ">"
  | .GE => some ">="
  | .LT => some "<"
  | .LE => some "<="
  | .AND => some "and"
  | .OR => some "or"
  | .NOT => some "~"
  | _ => none

/-- `getBinarySymbol` / `getUnarySymbol`: both throw a plain `Error` for
a token type without a (binary/unary) symbol, but the parser only calls
them on operator tokens it has just matched, all of which have one; the
unreachable throwing branch is modelled by the `""` default. -/
def getBinarySymbol (type : TokenType) : String :=
  (symbolForTokenType type).getD ""

def getUnarySymbol (type : TokenType) : String :=
  (symbolForTokenType type).getD ""

/-- The source location attached to an expression node. -/
def exprLoc : Expression → Loc
  | .numberLit _ l => l
  | .stringLit _ l => l
  | .booleanLit _ l => l
  | .identifier _ l => l
  | .grouping _ l => l
  | .binary _ _ _ l => l
  | .unary _ _ l => l
  | .functionCall _ _ _ l => l

/-- The identifier name inside a primary parsed at an identifier position
(the source casts the node to `Identifier`; for the pathological
`FunctionCallExpression` result the cast is unsound in the source too and
the call's name identifier is used here). -/
def exprIdentName : Expression → String
  | .identifier n _ => n
  | .functionCall n _ _ _ => n
  | _ => ""

/-- `Number.parseFloat` on the digit strings the lexer produces
(`digits` optionally followed by `.` and digits), as an exact rational;
the engine's rounding to double is not modelled. -/
def natFromDigits (l : List Char) : ℕ :=
  l.foldl (fun acc c => acc * 10 + (c.toNat - 48)) 0

def parseFloatQ (s : String) : JSNum :=
  let intPart := s.data.takeWhile (fun c => !(c == '.'))
  let fracPart := (s.data.dropWhile (fun c => !(c == '.'))).drop 1
  ⟨natFromDigits intPart * ((10 ^ fracPart.length : ℕ) : ℤ) +
     natFromDigits fracPart,
   ((10 ^ fracPart.length : ℕ) : ℤ)⟩

structure ParserState where
  tokens : List Token
  current : ℕ
deriving DecidableEq, Repr

/-- What a JS out-of-range `tokens[i]` access yields (`undefined`); only
reachable from token lists that do not end in `EOF`. -/
def undefinedToken : Token := ⟨.jsUndefined, "", 0, 0, 0, 0⟩

/-- JS `a || b` on numbers (0 is falsy). -/
def jsOr (a b : ℕ) : ℕ := if a = 0 then b else a

/-- `makeProgram(body, tokens)`. -/
def makeProgram (body : List Statement) (tokens : List Token) : Program :=
  let lastToken := tokens.getLast?
  { body := body,
    loc :=
      ⟨⟨1, 1⟩,
       ⟨jsOr ((lastToken.map (·.line)).getD 0) 1,
        jsOr ((lastToken.map (·.column)).getD 0) 1 +
          ((lastToken.map (·.value.length)).getD 0)⟩⟩ }

structure ParseError where
  message : String
  body : Program
  line : ℕ
  column : ℕ
  tokenLength : ℕ

structure ParseResult where
  ast : Program
  error : Option ParseError

/-- `peek`. -/
def pPeek (st : ParserState) : Token :=
  st.tokens.getD st.current undefinedToken

/-- `isEOF`. -/
def pIsEOF (t : Token) : Bool := t.type == .EOF

/-- `advance`: return the current token; move the cursor unless at EOF. -/
def pAdvance (st : ParserState) : Token × ParserState :=
  let token := st.tokens.getD st.current undefinedToken
  if !(pIsEOF token) then (token, { st with current := st.current + 1 })
  else (token, st)

/-- `match(state, type)`. -/
def pMatch (st : ParserState) (type : TokenType) : Bool × ParserState :=
  let token := st.tokens.getD st.current undefinedToken
  if pIsEOF token || !(token.type == type) then (false, st)
  else (true, (pAdvance st).2)

/-- `previousToken` (its `current === 0` plain-`Error` throw is
unreachable from `parse`, which always consumes a token before the error
paths that call this; modelled by the undefined token). -/
def previousToken (st : ParserState) : Token :=
  st.tokens.getD (st.current - 1) undefinedToken

/-- `isNextToken`. -/
def isNextToken (st : ParserState) (type : TokenType) : Bool :=
  let token := st.tokens.getD st.current undefinedToken
  !(pIsEOF token) && token.type == type

/-- `expectNext`: advance over a token of the given type or throw
`Expected token type X but found Y`. -/
def expectNext (st : ParserState) (type : TokenType) :
    Except ParseError (Token × ParserState) :=
  if isNextToken st type then .ok (pAdvance st)
  else
    let tok := st.tokens.getD st.current undefinedToken
    .error
      ⟨"Expected token type " ++ tokenTypeName type ++ " but found " ++
         tokenTypeName tok.type,
       makeProgram [] st.tokens, tok.line, tok.column, tok.value.length⟩

/-- The value a parse function returns when the modelling fuel runs out;
unreachable for the fuel `parse` supplies (the JS recursion is bounded by
the token list, every loop iteration consuming at least one token). -/
def fuelExhausted : ParseError :=
  ⟨"out of fuel (modelling artifact)", ⟨[], ⟨⟨1, 1⟩, ⟨1, 1⟩⟩⟩, 0, 0, 0⟩

mutual

/-- The statement loop of `parseStatements`; `body` accumulates the
statements parsed so far, and a `ParseError` from `parseStatement` is
re-thrown with that partial body attached (the `??` fallbacks of the
source never fire — the error's fields are always set). -/
def parseStatementsF : ℕ → ParserState → List Statement →
    Except ParseError (List Statement × ParserState)
  | 0, _, _ => .error fuelExhausted
  | fuel + 1, st, body =>
    if !(pIsEOF (pPeek st)) && !(isNextToken st .ELSE) &&
        !(isNextToken st .ELIF) && !(isNextToken st .END) then
      if isNextToken st .COMMENT then
        parseStatementsF fuel (pAdvance st).2 body
      else
        match parseStatementF fuel st with
        | .error err =>
          .error ⟨err.message, makeProgram body st.tokens, err.line,
            err.column, err.tokenLength⟩
        | .ok (stmt, st2) => parseStatementsF fuel st2 (body ++ [stmt])
    else .ok (body, st)

/-- The `elif` collection loop of the `IF` case. -/
def parseElifsF : ℕ → ParserState → List (Expression × List Statement) →
    Except ParseError (List (Expression × List Statement) × ParserState)
  | 0, _, _ => .error fuelExhausted
  | fuel + 1, st, acc =>
    if isNextToken st .ELIF then
      match parseExpressionF fuel (pAdvance st).2 with
      | .error e => .error e
      | .ok (cond, st2) =>
        match expectNext st2 .THEN with
        | .error e => .error e
        | .ok (_, st3) =>
          match parseStatementsF fuel st3 [] with
          | .error e => .error e
          | .ok (body, st4) => parseElifsF fuel st4 (acc ++ [(cond, body)])
    else .ok (acc, st)

/-- The parameter do-while of the `FUNC` case (first iteration has
already been guarded by `!isNextToken(state, "RPAREN")`). -/
def parseParamsF : ℕ → ParserState →
    Except ParseError (List (String × Loc) × ParserState)
  | 0, _ => .error fuelExhausted
  | fuel + 1, st =>
    if !(isNextToken st .IDENTIFIER) then
      .error ⟨"Expected identifier in function parameters",
        makeProgram [] st.tokens, (previousToken st).line,
        (previousToken st).column, (previousToken st).value.length⟩
    else
      match parsePrimaryF fuel st with
      | .error e => .error e
      | .ok (p, st2) =>
        let m := pMatch st2 .COMMA
        if m.1 then
          match parseParamsF fuel m.2 with
          | .error e => .error e
          | .ok (rest, st3) =>
            .ok ((exprIdentName p, exprLoc p) :: rest, st3)
        else .ok ([(exprIdentName p, exprLoc p)], m.2)

def parseStatementF : ℕ → ParserState →
    Except ParseError (Statement × ParserState)
  | 0, _ => .error fuelExhausted
  | fuel + 1, st =>
    let token := pPeek st
    match token.type with
    | .PRINT =>
      match parseExpressionF fuel (pAdvance st).2 with
      | .error e => .error e
      | .ok (expression, st2) =>
        .ok (.printS expression
          ⟨⟨token.line, token.column⟩, (exprLoc expression).stop⟩, st2)
    | .PRINTLN =>
      match parseExpressionF fuel (pAdvance st).2 with
      | .error e => .error e
      | .ok (expression, st2) =>
        .ok (.printlnS expression
          ⟨⟨token.line, token.column⟩, (exprLoc expression).stop⟩, st2)
    | .IF =>
      match parseExpressionF fuel (pAdvance st).2 with
      | .error e => .error e
      | .ok (condition, st2) =>
        match expectNext st2 .THEN with
        | .error e => .error e
        | .ok (_, st3) =>
          match parseStatementsF fuel st3 [] with
          | .error e => .error e
          | .ok (thenBranch, st4) =>
            match parseElifsF fuel st4 [] with
            | .error e => .error e
            | .ok (elifBranches, st5) =>
              let els : Except ParseError (List Statement × ParserState) :=
                if isNextToken st5 .ELSE then
                  parseStatementsF fuel (pAdvance st5).2 []
                else .ok ([], st5)
              match els with
              | .error e => .error e
              | .ok (elseBranch, st6) =>
                match expectNext st6 .END with
                | .error e => .error e
                | .ok (endTok, st7) =>
                  .ok (.ifS condition thenBranch elifBranches elseBranch
                    ⟨⟨token.line, token.column⟩,
                     ⟨endTok.line, endTok.column + endTok.value.length⟩⟩,
                    st7)
    | .WHILE =>
      match parseExpressionF fuel (pAdvance st).2 with
      | .error e => .error e
      | .ok (condition, st2) =>
        match expectNext st2 .DO with
        | .error e => .error e
        | .ok (_, st3) =>
          match parseStatementsF fuel st3 [] with
          | .error e => .error e
          | .ok (body, st4) =>
            match expectNext st4 .END with
            | .error e => .error e
            | .ok (endTok, st5) =>
              .ok (.whileS condition body
                ⟨⟨token.line, token.column⟩,
                 ⟨endTok.line, endTok.column + endTok.value.length⟩⟩, st5)
    | .FOR =>
      let st1 := (pAdvance st).2
      if !(isNextToken st1 .IDENTIFIER) then
        .error ⟨"Expected identifier after \x27for\x27",
          makeProgram [] st1.tokens, (previousToken st1).line,
          (previousToken st1).column, (previousToken st1).value.length⟩
      else
        match parsePrimaryF fuel st1 with
        | .error e => .error e
        | .ok (identifier, st2) =>
          match expectNext st2 .ASSIGN with
          | .error e => .error e
          | .ok (_, st3) =>
            match parseExpressionF fuel st3 with
            | .error e => .error e
            | .ok (startE, st4) =>
              match expectNext st4 .COMMA with
              | .error e => .error e
              | .ok (_, st5) =>
                match parseExpressionF fuel st5 with
                | .error e => .error e
                | .ok (condition, st6) =>
                  let m := pMatch st6 .COMMA
                  let incr :
                      Except ParseError (Option Expression × ParserState) :=
                    if m.1 then
                      match parseExpressionF fuel m.2 with
                      | .error e => .error e
                      | .ok (e, st7) => .ok (some e, st7)
                    else .ok (none, m.2)
                  match incr with
                  | .error e => .error e
                  | .ok (increment, st7) =>
                    match expectNext st7 .DO with
                    | .error e => .error e
                    | .ok (_, st8) =>
                      match parseStatementsF fuel st8 [] with
                      | .error e => .error e
                      | .ok (body, st9) =>
                        match expectNext st9 .END with
                        | .error e => .error e
                        | .ok (endTok, st10) =>
                          .ok (.forS (exprIdentName identifier)
                            (exprLoc identifier) startE
                            ⟨(exprLoc identifier).start, (exprLoc startE).stop⟩
                            condition increment body
                            ⟨⟨token.line, token.column⟩,
                             ⟨endTok.line,
                              endTok.column + endTok.value.length⟩⟩, st10)
    | .FUNC =>
      match expectNext (pAdvance st).2 .IDENTIFIER with
      | .error e => .error e
      | .ok (nameTok, st2) =>
        match expectNext st2 .LPAREN with
        | .error e => .error e
        | .ok (_, st3) =>
          let ps : Except ParseError (List (String × Loc) × ParserState) :=
            if !(isNextToken st3 .RPAREN) then parseParamsF fuel st3
            else .ok ([], st3)
          match ps with
          | .error e => .error e
          | .ok (params, st4) =>
            match expectNext st4 .RPAREN with
            | .error e => .error e
            | .ok (_, st5) =>
              match parseStatementsF fuel st5 [] with
              | .error e => .error e
              | .ok (body, st6) =>
                match expectNext st6 .END with
                | .error e => .error e
                | .ok (endTok, st7) =>
                  .ok (.funcDecl nameTok.value
                    ⟨⟨nameTok.line, nameTok.column⟩,
                     ⟨nameTok.line, nameTok.column + nameTok.value.length⟩⟩
                    params body
                    ⟨⟨token.line, token.column⟩,
                     ⟨endTok.line, endTok.column + endTok.value.length⟩⟩,
                    st7)
    | .RET =>
      match parseExpressionF fuel (pAdvance st).2 with
      | .error e => .error e
      | .ok (expression, st2) =>
        .ok (.returnS expression
          ⟨⟨token.line, token.column⟩, (exprLoc expression).stop⟩, st2)
    | .LOCAL =>
      let st1 := (pAdvance st).2
      if !(isNextToken st1 .IDENTIFIER) then
        .error ⟨"Expected identifier after \x27local\x27",
          makeProgram [] st1.tokens, (previousToken st1).line,
          (previousToken st1).column, (previousToken st1).value.length⟩
      else
        match parsePrimaryF fuel st1 with
        | .error e => .error e
        | .ok (identifier, st2) =>
          match expectNext st2 .ASSIGN with
          | .error e => .error e
          | .ok (_, st3) =>
            match parseExpressionF fuel st3 with
            | .error e => .error e
            | .ok (expression, st4) =>
              .ok (.localAssign (exprIdentName identifier)
                (exprLoc identifier) expression
                ⟨⟨token.line, token.column⟩, (exprLoc expression).stop⟩, st4)
    | .EOF =>
      .error ⟨"Unexpected end of input: expected statement",
        makeProgram [] st.tokens, (previousToken st).line,
        (previousToken st).column, (previousToken st).value.length⟩
    | _ =>
      match parseExpressionF fuel st with
      | .error e => .error e
      | .ok (left, st2) =>
        match left with
        | .identifier n l =>
          let m := pMatch st2 .ASSIGN
          if m.1 then
            match parseExpressionF fuel m.2 with
            | .error e => .error e
            | .ok (right, st3) =>
              .ok (.assign n l right ⟨l.start, (exprLoc right).stop⟩, st3)
          else
            .ok (.exprStmt left ⟨(exprLoc left).start, (exprLoc left).stop⟩,
              st2)
        | _ =>
          .ok (.exprStmt left ⟨(exprLoc left).start, (exprLoc left).stop⟩,
            st2)

def parseExpressionF : ℕ → ParserState →
    Except ParseError (Expression × ParserState)
  | 0, _ => .error fuelExhausted
  | fuel + 1, st => parseOrF fuel st

def parseOrF : ℕ → ParserState → Except ParseError (Expression × ParserState)
  | 0, _ => .error fuelExhausted
  | fuel + 1, st =>
    match parseAndF fuel st with
    | .error e => .error e
    | .ok (left, st2) => parseOrLoopF fuel left st2

def parseOrLoopF : ℕ → Expression → ParserState →
    Except ParseError (Expression × ParserState)
  | 0, _, _ => .error fuelExhausted
  | fuel + 1, left, st =>
    let m := pMatch st .OR
    if m.1 then
      match parseAndF fuel m.2 with
      | .error e => .error e
      | .ok (right, st2) =>
        parseOrLoopF fuel
          (.binary "or" left right
            ⟨(exprLoc left).start, (exprLoc right).stop⟩) st2
    else .ok (left, st)

def parseAndF : ℕ → ParserState → Except ParseError (Expression × ParserState)
  | 0, _ => .error fuelExhausted
  | fuel + 1, st =>
    match parseEqualityF fuel st with
    | .error e => .error e
    | .ok (left, st2) => parseAndLoopF fuel left st2

def parseAndLoopF : ℕ → Expression → ParserState →
    Except ParseError (Expression × ParserState)
  | 0, _, _ => .error fuelExhausted
  | fuel + 1, left, st =>
    let m := pMatch st .AND
    if m.1 then
      match parseEqualityF fuel m.2 with
      | .error e => .error e
      | .ok (right, st2) =>
        parseAndLoopF fuel
          (.binary "and" left right
            ⟨(exprLoc left).start, (exprLoc right).stop⟩) st2
    else .ok (left, st)

def parseEqualityF : ℕ → ParserState →
    Except ParseError (Expression × ParserState)
  | 0, _ => .error fuelExhausted
  | fuel + 1, st =>
    match parseComparisonF fuel st with
    | .error e => .error e
    | .ok (left, st2) => parseEqualityLoopF fuel left st2

def parseEqualityLoopF : ℕ → Expression → ParserState →
    Except ParseError (Expression × ParserState)
  | 0, _, _ => .error fuelExhausted
  | fuel + 1, left, st =>
    let m1 := pMatch st .EQEQ
    let m := if m1.1 then m1 else pMatch st .NE
    if m.1 then
      let op := (previousToken m.2).type
      match parseComparisonF fuel m.2 with
      | .error e => .error e
      | .ok (right, st2) =>
        parseEqualityLoopF fuel
          (.binary (getBinarySymbol op) left right
            ⟨(exprLoc left).start, (exprLoc right).stop⟩) st2
    else .ok (left, st)

def parseComparisonF : ℕ → ParserState →
    Except ParseError (Expression × ParserState)
  | 0, _ => .error fuelExhausted
  | fuel + 1, st =>
    match parseAdditionF fuel st with
    | .error e => .error e
    | .ok (left, st2) => parseComparisonLoopF fuel left st2

def parseComparisonLoopF : ℕ → Expression → ParserState →
    Except ParseError (Expression × ParserState)
  | 0, _, _ => .error fuelExhausted
  | fuel + 1, left, st =>
    let m1 := pMatch st .GT
    let m2 := if m1.1 then m1 else pMatch st .LT
    let m3 := if m2.1 then m2 else pMatch st .GE
    let m := if m3.1 then m3 else pMatch st .LE
    if m.1 then
      let op := (previousToken m.2).type
      match parseAdditionF fuel m.2 with
      | .error e => .error e
      | .ok (right, st2) =>
        parseComparisonLoopF fuel
          (.binary (getBinarySymbol op) left right
            ⟨(exprLoc left).start, (exprLoc right).stop⟩) st2
    else .ok (left, st)

def parseAdditionF : ℕ → ParserState →
    Except ParseError (Expression × ParserState)
  | 0, _ => .error fuelExhausted
  | fuel + 1, st =>
    match parseMultiplicationF fuel st with
    | .error e => .error e
    | .ok (left, st2) => parseAdditionLoopF fuel left st2

def parseAdditionLoopF : ℕ → Expression → ParserState →
    Except ParseError (Expression × ParserState)
  | 0, _, _ => .error fuelExhausted
  | fuel + 1, left, st =>
    let m1 := pMatch st .PLUS
    let m := if m1.1 then m1 else pMatch st .MINUS
    if m.1 then
      let op := (previousToken m.2).type
      match parseMultiplicationF fuel m.2 with
      | .error e => .error e
      | .ok (right, st2) =>
        parseAdditionLoopF fuel
          (.binary (getBinarySymbol op) left right
            ⟨(exprLoc left).start, (exprLoc right).stop⟩) st2
    else .ok (left, st)

def parseMultiplicationF : ℕ → ParserState →
    Except ParseError (Expression × ParserState)
  | 0, _ => .error fuelExhausted
  | fuel + 1, st =>
    match parseModuloF fuel st with
    | .error e => .error e
    | .ok (left, st2) => parseMultiplicationLoopF fuel left st2

def parseMultiplicationLoopF : ℕ → Expression → ParserState →
    Except ParseError (Expression × ParserState)
  | 0, _, _ => .error fuelExhausted
  | fuel + 1, left, st =>
    let m1 := pMatch st .STAR
    let m := if m1.1 then m1 else pMatch st .SLASH
    if m.1 then
      let op := (previousToken m.2).type
      match parseModuloF fuel m.2 with
      | .error e => .error e
      | .ok (right, st2) =>
        parseMultiplicationLoopF fuel
          (.binary (getBinarySymbol op) left right
            ⟨(exprLoc left).start, (exprLoc right).stop⟩) st2
    else .ok (left, st)

/-- `parseModulo`: note the single `if (match(state, "MOD"))` — modulo
chains are not re-matched (non-associative). -/
def parseModuloF : ℕ → ParserState →
    Except ParseError (Expression × ParserState)
  | 0, _ => .error fuelExhausted
  | fuel + 1, st =>
    match parseUnaryF fuel st with
    | .error e => .error e
    | .ok (left, st2) =>
      let m := pMatch st2 .MOD
      if m.1 then
        let op := (previousToken m.2).type
        match parseUnaryF fuel m.2 with
        | .error e => .error e
        | .ok (right, st3) =>
          .ok (.binary (getBinarySymbol op) left right
            ⟨(exprLoc left).start, (exprLoc right).stop⟩, st3)
      else .ok (left, st2)

def parseUnaryF : ℕ → ParserState →
    Except ParseError (Expression × ParserState)
  | 0, _ => .error fuelExhausted
  | fuel + 1, st =>
    let m1 := pMatch st .PLUS
    let m2 := if m1.1 then m1 else pMatch st .MINUS
    let m := if m2.1 then m2 else pMatch st .NOT
    if m.1 then
      let op := previousToken m.2
      match parseUnaryF fuel m.2 with
      | .error e => .error e
      | .ok (argument, st2) =>
        .ok (.unary (getUnarySymbol op.type) argument
          ⟨⟨op.line, op.column⟩, (exprLoc argument).stop⟩, st2)
    else parseExponentF fuel st

def parseExponentF : ℕ → ParserState →
    Except ParseError (Expression × ParserState)
  | 0, _ => .error fuelExhausted
  | fuel + 1, st =>
    match parsePrimaryF fuel st with
    | .error e => .error e
    | .ok (left, st2) => parseExponentLoopF fuel left st2

def parseExponentLoopF : ℕ → Expression → ParserState →
    Except ParseError (Expression × ParserState)
  | 0, _, _ => .error fuelExhausted
  | fuel + 1, left, st =>
    let m := pMatch st .CARET
    if m.1 then
      let op := (previousToken m.2).type
      match parsePrimaryF fuel m.2 with
      | .error e => .error e
      | .ok (right, st2) =>
        parseExponentLoopF fuel
          (.binary (getBinarySymbol op) left right
            ⟨(exprLoc left).start, (exprLoc right).stop⟩) st2
    else .ok (left, st)

/-- The argument do-while of a function call (first iteration has been
guarded by `!isNextToken(state, "RPAREN")`). -/
def parseArgsF : ℕ → ParserState →
    Except ParseError (List Expression × ParserState)
  | 0, _ => .error fuelExhausted
  | fuel + 1, st =>
    match parseExpressionF fuel st with
    | .error e => .error e
    | .ok (e, st2) =>
      let m := pMatch st2 .COMMA
      if m.1 then
        match parseArgsF fuel m.2 with
        | .error er => .error er
        | .ok (rest, st3) => .ok (e :: rest, st3)
      else .ok ([e], m.2)

def parsePrimaryF : ℕ → ParserState →
    Except ParseError (Expression × ParserState)
  | 0, _ => .error fuelExhausted
  | fuel + 1, st =>
    let a := pAdvance st
    let token := a.1
    let st1 := a.2
    match token.type with
    | .NUMBER =>
      .ok (.numberLit (parseFloatQ token.value)
        ⟨⟨token.line, token.column⟩,
         ⟨token.line, token.column + token.value.length⟩⟩, st1)
    | .TRUE =>
      .ok (.booleanLit (token.value == "true")
        ⟨⟨token.line, token.column⟩,
         ⟨token.line, token.column + token.value.length⟩⟩, st1)
    | .FALSE =>
      .ok (.booleanLit (token.value == "true")
        ⟨⟨token.line, token.column⟩,
         ⟨token.line, token.column + token.value.length⟩⟩, st1)
    | .STRING =>
      .ok (.stringLit token.value
        ⟨⟨token.line, token.column⟩,
         ⟨token.line, token.column + token.value.length + 2⟩⟩, st1)
    | .LPAREN =>
      match parseExpressionF fuel st1 with
      | .error e => .error e
      | .ok (expr, st2) =>
        match expectNext st2 .RPAREN with
        | .error e => .error e
        | .ok (rparen, st3) =>
          .ok (.grouping expr
            ⟨⟨token.line, token.column⟩,
             ⟨rparen.line, rparen.column + rparen.value.length⟩⟩, st3)
    | .IDENTIFIER =>
      let m := pMatch st1 .LPAREN
      if m.1 then
        let args : Except ParseError (List Expression × ParserState) :=
          if !(isNextToken m.2 .RPAREN) then parseArgsF fuel m.2
          else .ok ([], m.2)
        match args with
        | .error e => .error e
        | .ok (argList, st2) =>
          match expectNext st2 .RPAREN with
          | .error e => .error e
          | .ok (rparen, st3) =>
            .ok (.functionCall token.value
              ⟨⟨token.line, token.column⟩,
               ⟨token.line, token.column + token.value.length⟩⟩
              argList
              ⟨⟨token.line, token.column⟩,
               ⟨rparen.line, rparen.column + rparen.value.length⟩⟩, st3)
      else
        .ok (.identifier token.value
          ⟨⟨token.line, token.column⟩,
           ⟨token.line, token.column + token.value.length⟩⟩, st1)
    | .EOF =>
      .error ⟨"Unexpected end of input: expected expression",
        makeProgram [] st1.tokens, (previousToken st1).line,
        (previousToken st1).column, (previousToken st1).value.length⟩
    | _ =>
      .error ⟨"Unexpected token type " ++ tokenTypeName token.type ++
          " in expression",
        makeProgram [] st1.tokens, (previousToken st1).line,
        (previousToken st1).column, (previousToken st1).value.length⟩

end

/-- `parse(tokens)`: run the statement loop; on success wrap the body in
a `Program`, on a `ParseError` return the error's partial program.  The
fuel is far above the bound the token-consuming recursion can reach. -/
def parse (tokens : List Token) : ParseResult :=
  match parseStatementsF (50 * tokens.length + 50) ⟨tokens, 0⟩ [] with
  | .ok (body, _) => ⟨makeProgram body tokens, none⟩
  | .error err => ⟨err.body, some err⟩

/-! ## The `is_truthy` runtime helper, as a function on heap cells

`isTruthyFunctionBody` is straight-line WebAssembly over one boxed cell;
`isTruthySem` transcribes it branch for branch.  A cell models the 16-byte
box: `tag` is the i32 at bytes 0..3, `a` the i32 at bytes 4..7, `b` the
i32 at bytes 8..11, and `f` the f64 at bytes 8..15 (meaningful when the
cell is a number box).  The helper: if `tag == 1`, return `f64.ne(f, 0)`;
else if `tag == 3`, return the raw i32 loaded from offset 4; else if
`tag == 2`, return `i32.ne(b, 0)`; else the falsy fallback `0`. -/

structure BoxCell where
  tag : ℕ
  a : ℤ
  b : ℤ
  f : ℚ
deriving DecidableEq, Repr

def isTruthySem (cell : BoxCell) : ℤ :=
  if cell.tag = 1 then (if cell.f ≠ 0 then 1 else 0)
  else if cell.tag = 3 then cell.a
  else if cell.tag = 2 then (if cell.b ≠ 0 then 1 else 0)
  else 0

/-- The cells the boxing helpers actually produce: tags 0–3 only, and a
bool box stores 0 or 1 at offset 4 (`box_bool` is called with
`i32.const 0|1`). -/
def WellFormedBox (cell : BoxCell) : Prop :=
  cell.tag ≤ 3 ∧ (cell.tag = 3 → cell.a = 0 ∨ cell.a = 1)

instance (cell : BoxCell) : Decidable (WellFormedBox cell) := by
  unfold WellFormedBox; infer_instance

/-- The table of falsy boxed values: nil, the number 0, the empty string,
and false. -/
def FalsyBox (cell : BoxCell) : Prop :=
  cell.tag = 0 ∨ (cell.tag = 1 ∧ cell.f = 0) ∨
    (cell.tag = 2 ∧ cell.b = 0) ∨ (cell.tag = 3 ∧ cell.a = 0)

instance (cell : BoxCell) : Decidable (FalsyBox cell) := by
  unfold FalsyBox; infer_instance

/-! ## Byte-sequence search helpers (for stating what compiled code
does and does not contain). -/

def listStartsWith : List ℕ → List ℕ → Bool
  | _, [] => true
  | [], _ :: _ => false
  | a :: l, b :: p => a == b && listStartsWith l p

/-- `containsSeq l pat`: does `pat` occur as a contiguous run in `l`? -/
def containsSeq : List ℕ → List ℕ → Bool
  | [], pat => pat.isEmpty
  | a :: l, pat => listStartsWith (a :: l) pat || containsSeq l pat

/-! ## Claim C1 — `+` with a non-number operand

The program of the claim: `x := 5`, `y := "hi"`, `println x + y`. -/

def progC1 : List Statement :=
  [ .assign "x" dummyLoc (.numberLit 5 dummyLoc) dummyLoc,
    .assign "y" dummyLoc (.stringLit "hi" dummyLoc) dummyLoc,
    .printlnS (.binary "+" (.identifier "x" dummyLoc)
      (.identifier "y" dummyLoc) dummyLoc) dummyLoc ]

/-- The instructions the code generator emits for `progC1`:
`f64.const 5; call box_number; local.set 0` — `i32.const 0; i32.const 2;
call box_string; local.set 1` — `local.get 0; call unbox_number;
local.get 1; call unbox_number; f64.add; call box_number;
call println`. -/
def mainBytesC1 : List ℕ :=
  [0x44, 0, 0, 0, 0, 0, 0, 0x14, 0x40, 0x10, 0x0c, 0x21, 0x00,
   0x41, 0x00, 0x41, 0x02, 0x10, 0x0f, 0x21, 0x01,
   0x20, 0x00, 0x10, 0x0d, 0x20, 0x01, 0x10, 0x0d, 0xa0, 0x10, 0x0c,
   0x10, 0x01]

/-- C1.  The claim says a `+` whose operand is not a number is routed
through the `concat` helper (function index 10) and prints `5hi`.  In
fact `nativeBinOps["+"]` is the native opcode `0xa0`, so `compileStatements`
compiles `x + y` by unboxing both operands as numbers and adding
(`f64.add` present), and the emitted code never calls `concat`: the call
sequence `0x10 0x0a` does not occur. -/
theorem plus_with_string_operand_compiles_without_concat :
    (compileStatements progC1 freshState).1 = .ok mainBytesC1 ∧
    containsSeq mainBytesC1 (fn_call (baseFunc "concat")) = false ∧
    containsSeq mainBytesC1 f64_add = true := by
  decide

/-! ## Claim C2 — `ret e` emission -/

/-- A state in which `a` is a declared variable at slot 0 (as inside a
compiled function body `func f(a) ret a end`). -/
def retTestState : CState :=
  { freshState with scopes := [[("a", 0)]], nextLocalVarsIndex := 1 }

/-- C2.  The claim says `ret e` compiles to the bytes of `e` followed by
the `return` opcode `0x0f`.  In fact the case emits
`fn.call(func().ret)`: no function named `ret` exists, `func().ret` is
JS `undefined`, and `unsignedLEB(undefined >>> 0)` encodes index 0 — so
the emitted bytes are `e`'s bytes followed by `call 0` (`0x10 0x00`, a
call of the `print` import), not `0x0f`. -/
theorem ret_statement_emits_call_zero_not_return :
    funcIdx [] "ret" = none ∧
    (compileStatement (.returnS (.identifier "a" dummyLoc) dummyLoc)
        retTestState).1 = .ok (local_get 0 ++ [0x10, 0x00]) ∧
    local_get 0 ++ [0x10, 0x00] ≠ local_get 0 ++ fn_return := by
  decide

/-! ## Claim C3 — duplicate `local` declaration -/

/-- The program `local x := 1` / `local x := 2` (same frame). -/
def progC3 : Program :=
  ⟨[ .localAssign "x" dummyLoc (.numberLit 1 dummyLoc) dummyLoc,
     .localAssign "x" dummyLoc (.numberLit 2 dummyLoc) dummyLoc ],
   dummyLoc⟩

/-- C3.  The claim says `compile` returns a non-null `error` for a
duplicate `local` declaration.  In fact `declareVar` throws a plain
`Error` (second conjunct), which `compile`'s catch clause does not treat
as a `CompilerError`: the returned record has empty `bytes` and a null
`error` (first conjunct). -/
theorem duplicate_local_is_swallowed_error_null :
    (compile progC3 freshState).1 =
      ⟨[], none, []⟩ ∧
    (_compile progC3 freshState).1 =
      .error (.plain "Variable \"x\" already declared in current scope") := by
  decide

/-! ## Claim C4 — function bodies and enclosing locals -/

/-- The program `x := 1` then `func f() print x end`: `x` is bound only
in the enclosing (main) scope. -/
def progC4 : Program :=
  ⟨[ .assign "x" dummyLoc (.numberLit 1 dummyLoc) dummyLoc,
     .funcDecl "f" dummyLoc [] [.printS (.identifier "x" dummyLoc) dummyLoc]
       dummyLoc ],
   dummyLoc⟩

/-- C4.  The claim says a function body opens a fresh scope stack, so the
reference to `x` inside `f` is an unknown identifier and a compile-time
error.  In fact `compile` succeeds (`error = none`): the function body is
compiled under `enterScope()` on the same stack, `findScopeForVar` walks
out into the main frame (scope state `[[("x", 0)]]`), and `f`'s recorded
body is `locals: none; local.get 0; call 0; end` — slot 0, the enclosing
binding's slot, read from the function's own (empty) local index space. -/
theorem function_body_resolves_enclosing_local_without_error :
    (compile progC4 freshState).1.error = none ∧
    (compile progC4 freshState).2.funcBodies.lookup "f" =
      some ([0x00] ++ local_get 0 ++ fn_call (baseFunc "print") ++
        control_end) ∧
    (compile progC4 freshState).2.scopes = [[("x", 0)]] := by
  decide

/-! ## Claim C5 — for-loop variable shadowing -/

/-- The program `i := 2`, `for i := 1, 3 do print i end`, `print i`. -/
def progC5 : List Statement :=
  [ .assign "i" dummyLoc (.numberLit 2 dummyLoc) dummyLoc,
    .forS "i" dummyLoc (.numberLit 1 dummyLoc) dummyLoc
      (.numberLit 3 dummyLoc) none
      [.printS (.identifier "i" dummyLoc) dummyLoc] dummyLoc,
    .printS (.identifier "i" dummyLoc) dummyLoc ]

/-- The emitted instructions for `progC5`.  Reading them: `i := 2` sets
slot 0; the for-loop's init `i := 1` sets the same slot 0 (the non-local
`declareVar` found the outer binding); the loop's increment ends with
`local.set 0` (bytes `0x21 0x00` before `br 0`); and the trailing
`print i` reads `local.get 0`.  Slot 1 is only the `is_descending`
scratch. -/
def mainBytesC5 : List ℕ :=
  [0x44, 0, 0, 0, 0, 0, 0, 0, 0x40, 0x10, 0x0c, 0x21, 0x00,
   0x44, 0, 0, 0, 0, 0, 0, 0xf0, 0x3f, 0x10, 0x0c, 0x21, 0x00,
   0x44, 0, 0, 0, 0, 0, 0, 0xf0, 0x3f, 0x10, 0x0c, 0x10, 0x0d,
   0x44, 0, 0, 0, 0, 0, 0, 0, 0, 0x63, 0x21, 0x01,
   0x02, 0x40, 0x03, 0x40, 0x20, 0x01, 0x04, 0x7f, 0x20, 0x00, 0x10, 0x0d,
   0x44, 0, 0, 0, 0, 0, 0, 0x08, 0x40, 0x10, 0x0c, 0x10, 0x0d, 0x63,
   0x05, 0x20, 0x00, 0x10, 0x0d,
   0x44, 0, 0, 0, 0, 0, 0, 0x08, 0x40, 0x10, 0x0c, 0x10, 0x0d, 0x64,
   0x0b, 0x0d, 0x01,
   0x20, 0x00, 0x10, 0x00,
   0x20, 0x00, 0x10, 0x0d,
   0x44, 0, 0, 0, 0, 0, 0, 0xf0, 0x3f, 0x10, 0x0c, 0x10, 0x0d,
   0xa0, 0x10, 0x0c, 0x21, 0x00,
   0x0c, 0x00, 0x0b, 0x0b,
   0x20, 0x00, 0x10, 0x00]

/-- C5.  The claim says the for-loop variable shadows the outer `i`, so
the loop's assignments leave the outer slot unchanged and `i` reads 2
after the loop.  In fact the loop's `i` reuses the outer binding's slot
0 (final scope state `[[("i", 0)]]`, next free local 2 with slot 1 the
scratch): in the emitted code the loop increment writes `local.set 0`
and the read after the loop is `local.get 0` — the same slot the loop
just advanced past 3, not a shadowed copy holding 2. -/
theorem for_loop_variable_reuses_outer_slot :
    (compileStatements progC5 freshState).1 = .ok mainBytesC5 ∧
    (compileStatements progC5 freshState).2.scopes = [[("i", 0)]] ∧
    (compileStatements progC5 freshState).2.nextLocalVarsIndex = 2 := by
  decide

/-! ## Claim C6 — string escape sequences -/

/-- C6.  The claim says `tokenize` expands `\n`, `\t` and `\"` inside
string literals.  In fact the string case of the lexer accumulates the
characters verbatim: for the source `print "a\nb"` (with a literal
backslash-n in the string) the produced STRING token's text is the
four-character `a\nb` (backslash kept), not the three-character text
with a newline, and no escape of any form is rewritten. -/
theorem string_escapes_are_not_expanded :
    (tokenize "print \"a\\nb\"").error = none ∧
    ((tokenize "print \"a\\nb\"").tokens.map (fun t => (t.type, t.value))) =
      [(.PRINT, "print"), (.STRING, "a\\nb"), (.EOF, "")] ∧
    "a\\nb" ≠ "a\nb" := by
  decide

/-! ## Claim C7 — modulo is non-associative

`parseModulo` matches a single `%` (no loop), so after `a % b` the parser
returns to the statement level with the second `%` still unconsumed; the
statement loop then re-enters the expression grammar at that `%` token and
`parsePrimary` rejects it.  The lemmas below walk a simple operand (a
number, string, boolean or identifier token) through each precedence
level of the parser at the exact fuel each level receives. -/

def SimpleOperand (t : Token) : Prop :=
  t.type = .NUMBER ∨ t.type = .STRING ∨ t.type = .TRUE ∨
    t.type = .FALSE ∨ t.type = .IDENTIFIER

theorem parsePrimary_simple (f i : ℕ) (toks : List Token)
    (hs : SimpleOperand (toks.getD i undefinedToken))
    (hnl : (toks.getD (i + 1) undefinedToken).type ≠ .LPAREN) :
    ∃ ex, parsePrimaryF (f + 1) ⟨toks, i⟩ = .ok (ex, ⟨toks, i + 1⟩) := by
  have hbeq : ((toks.getD (i + 1) undefinedToken).type == .LPAREN) = false :=
    beq_eq_false_iff_ne.mpr hnl
  simp only [List.getD_eq_getElem?_getD] at hbeq
  rcases hs with h | h | h | h | h <;>
  · simp only [List.getD_eq_getElem?_getD] at h
    simp only [parsePrimaryF, pAdvance, pIsEOF, pMatch]
    simp [h, hbeq]

theorem parseExponent_simple (f i : ℕ) (toks : List Token)
    (hs : SimpleOperand (toks.getD i undefinedToken))
    (hnl : (toks.getD (i + 1) undefinedToken).type ≠ .LPAREN)
    (hnc : (toks.getD (i + 1) undefinedToken).type ≠ .CARET) :
    ∃ ex, parseExponentF (f + 2) ⟨toks, i⟩ = .ok (ex, ⟨toks, i + 1⟩) := by
  obtain ⟨ex, hex⟩ := parsePrimary_simple f i toks hs hnl
  have hbc : ((toks.getD (i + 1) undefinedToken).type == .CARET) = false :=
    beq_eq_false_iff_ne.mpr hnc
  simp only [List.getD_eq_getElem?_getD] at hbc
  refine ⟨ex, ?_⟩
  simp only [parseExponentF, hex, parseExponentLoopF, pMatch, pIsEOF]
  simp [hbc]

theorem parseUnary_simple (f i : ℕ) (toks : List Token)
    (hs : SimpleOperand (toks.getD i undefinedToken))
    (hnl : (toks.getD (i + 1) undefinedToken).type ≠ .LPAREN)
    (hnc : (toks.getD (i + 1) undefinedToken).type ≠ .CARET) :
    ∃ ex, parseUnaryF (f + 3) ⟨toks, i⟩ = .ok (ex, ⟨toks, i + 1⟩) := by
  obtain ⟨ex, hex⟩ := parseExponent_simple f i toks hs hnl hnc
  refine ⟨ex, ?_⟩
  rcases hs with h | h | h | h | h <;>
  · simp only [List.getD_eq_getElem?_getD] at h
    simp only [parseUnaryF, pMatch, pIsEOF]
    simp [h, hex]


theorem parseModulo_mod (f i : ℕ) (toks : List Token)
    (ha : SimpleOperand (toks.getD i undefinedToken))
    (hm : (toks.getD (i + 1) undefinedToken).type = .MOD)
    (hb : SimpleOperand (toks.getD (i + 2) undefinedToken))
    (hf1 : (toks.getD (i + 3) undefinedToken).type ≠ .LPAREN)
    (hf2 : (toks.getD (i + 3) undefinedToken).type ≠ .CARET) :
    ∃ l r loc, parseModuloF (f + 4) ⟨toks, i⟩ =
      .ok (.binary "%" l r loc, ⟨toks, i + 3⟩) := by
  have hnl : (toks.getD (i + 1) undefinedToken).type ≠ .LPAREN := by
    rw [hm]; intro hx; cases hx
  have hnc : (toks.getD (i + 1) undefinedToken).type ≠ .CARET := by
    rw [hm]; intro hx; cases hx
  obtain ⟨l, hl⟩ := parseUnary_simple f i toks ha hnl hnc
  have hf1' : (toks.getD (i + 2 + 1) undefinedToken).type ≠ .LPAREN := hf1
  have hf2' : (toks.getD (i + 2 + 1) undefinedToken).type ≠ .CARET := hf2
  obtain ⟨r, hr⟩ := parseUnary_simple f (i + 2) toks hb hf1' hf2'
  have hr' : parseUnaryF (f + 3) ⟨toks, i + 2⟩ = .ok (r, ⟨toks, i + 3⟩) := hr
  refine ⟨l, r, ⟨(exprLoc l).start, (exprLoc r).stop⟩, ?_⟩
  simp only [List.getD_eq_getElem?_getD] at hm
  simp only [parseModuloF, hl, pMatch, pIsEOF, pAdvance, previousToken]
  simp [hm, hr']
  rfl

/-- A follow token that is `%` or end-of-input starts no further
iteration of any of the left-associative loops. -/
def ModOrEof (t : Token) : Prop := t.type = .MOD ∨ t.type = .EOF

theorem multLoop_noop (f i : ℕ) (left : Expression) (toks : List Token)
    (hf : ModOrEof (toks.getD i undefinedToken)) :
    parseMultiplicationLoopF (f + 1) left ⟨toks, i⟩ = .ok (left, ⟨toks, i⟩) := by
  rcases hf with hf | hf <;>
  · simp only [List.getD_eq_getElem?_getD] at hf
    simp only [parseMultiplicationLoopF, pMatch, pIsEOF]
    simp [hf]

theorem addLoop_noop (f i : ℕ) (left : Expression) (toks : List Token)
    (hf : ModOrEof (toks.getD i undefinedToken)) :
    parseAdditionLoopF (f + 1) left ⟨toks, i⟩ = .ok (left, ⟨toks, i⟩) := by
  rcases hf with hf | hf <;>
  · simp only [List.getD_eq_getElem?_getD] at hf
    simp only [parseAdditionLoopF, pMatch, pIsEOF]
    simp [hf]

theorem cmpLoop_noop (f i : ℕ) (left : Expression) (toks : List Token)
    (hf : ModOrEof (toks.getD i undefinedToken)) :
    parseComparisonLoopF (f + 1) left ⟨toks, i⟩ = .ok (left, ⟨toks, i⟩) := by
  rcases hf with hf | hf <;>
  · simp only [List.getD_eq_getElem?_getD] at hf
    simp only [parseComparisonLoopF, pMatch, pIsEOF]
    simp [hf]

theorem eqLoop_noop (f i : ℕ) (left : Expression) (toks : List Token)
    (hf : ModOrEof (toks.getD i undefinedToken)) :
    parseEqualityLoopF (f + 1) left ⟨toks, i⟩ = .ok (left, ⟨toks, i⟩) := by
  rcases hf with hf | hf <;>
  · simp only [List.getD_eq_getElem?_getD] at hf
    simp only [parseEqualityLoopF, pMatch, pIsEOF]
    simp [hf]

theorem andLoop_noop (f i : ℕ) (left : Expression) (toks : List Token)
    (hf : ModOrEof (toks.getD i undefinedToken)) :
    parseAndLoopF (f + 1) left ⟨toks, i⟩ = .ok (left, ⟨toks, i⟩) := by
  rcases hf with hf | hf <;>
  · simp only [List.getD_eq_getElem?_getD] at hf
    simp only [parseAndLoopF, pMatch, pIsEOF]
    simp [hf]

theorem orLoop_noop (f i : ℕ) (left : Expression) (toks : List Token)
    (hf : ModOrEof (toks.getD i undefinedToken)) :
    parseOrLoopF (f + 1) left ⟨toks, i⟩ = .ok (left, ⟨toks, i⟩) := by
  rcases hf with hf | hf <;>
  · simp only [List.getD_eq_getElem?_getD] at hf
    simp only [parseOrLoopF, pMatch, pIsEOF]
    simp [hf]

theorem parseExpression_mod (f i : ℕ) (toks : List Token)
    (ha : SimpleOperand (toks.getD i undefinedToken))
    (hm : (toks.getD (i + 1) undefinedToken).type = .MOD)
    (hb : SimpleOperand (toks.getD (i + 2) undefinedToken))
    (hfollow : ModOrEof (toks.getD (i + 3) undefinedToken)) :
    ∃ l r loc, parseExpressionF (f + 11) ⟨toks, i⟩ =
      .ok (.binary "%" l r loc, ⟨toks, i + 3⟩) := by
  have hf1 : (toks.getD (i + 3) undefinedToken).type ≠ .LPAREN := by
    rcases hfollow with hf | hf <;> · rw [hf]; intro hx; cases hx
  have hf2 : (toks.getD (i + 3) undefinedToken).type ≠ .CARET := by
    rcases hfollow with hf | hf <;> · rw [hf]; intro hx; cases hx
  obtain ⟨l, r, loc, hmod⟩ := parseModulo_mod f i toks ha hm hb hf1 hf2
  have h5 : parseMultiplicationF (f + 5) ⟨toks, i⟩ =
      .ok (.binary "%" l r loc, ⟨toks, i + 3⟩) := by
    simp only [parseMultiplicationF, hmod]
    exact multLoop_noop (f + 3) (i + 3) _ toks hfollow
  have h6 : parseAdditionF (f + 6) ⟨toks, i⟩ =
      .ok (.binary "%" l r loc, ⟨toks, i + 3⟩) := by
    simp only [parseAdditionF, h5]
    exact addLoop_noop (f + 4) (i + 3) _ toks hfollow
  have h7 : parseComparisonF (f + 7) ⟨toks, i⟩ =
      .ok (.binary "%" l r loc, ⟨toks, i + 3⟩) := by
    simp only [parseComparisonF, h6]
    exact cmpLoop_noop (f + 5) (i + 3) _ toks hfollow
  have h8 : parseEqualityF (f + 8) ⟨toks, i⟩ =
      .ok (.binary "%" l r loc, ⟨toks, i + 3⟩) := by
    simp only [parseEqualityF, h7]
    exact eqLoop_noop (f + 6) (i + 3) _ toks hfollow
  have h9 : parseAndF (f + 9) ⟨toks, i⟩ =
      .ok (.binary "%" l r loc, ⟨toks, i + 3⟩) := by
    simp only [parseAndF, h8]
    exact andLoop_noop (f + 7) (i + 3) _ toks hfollow
  have h10 : parseOrF (f + 10) ⟨toks, i⟩ =
      .ok (.binary "%" l r loc, ⟨toks, i + 3⟩) := by
    simp only [parseOrF, h9]
    exact orLoop_noop (f + 8) (i + 3) _ toks hfollow
  exact ⟨l, r, loc, by simp only [parseExpressionF, h10]⟩

theorem parseExpression_err_at_mod (f i : ℕ) (toks : List Token)
    (hm : (toks.getD i undefinedToken).type = .MOD) :
    ∃ er, parseExpressionF (f + 11) ⟨toks, i⟩ = .error er := by
  have hm' := hm
  simp only [List.getD_eq_getElem?_getD] at hm'
  obtain ⟨e1, h1⟩ : ∃ er, parsePrimaryF (f + 1) ⟨toks, i⟩ = .error er := by
    simp only [parsePrimaryF, pAdvance, pIsEOF]
    simp [hm']
  have h2 : parseExponentF (f + 2) ⟨toks, i⟩ = .error e1 := by
    simp only [parseExponentF, h1]
  have h3 : parseUnaryF (f + 3) ⟨toks, i⟩ = .error e1 := by
    simp only [parseUnaryF, pMatch, pIsEOF]
    simp [hm', h2]
  have h4 : parseModuloF (f + 4) ⟨toks, i⟩ = .error e1 := by
    simp only [parseModuloF, h3]
  have h5 : parseMultiplicationF (f + 5) ⟨toks, i⟩ = .error e1 := by
    simp only [parseMultiplicationF, h4]
  have h6 : parseAdditionF (f + 6) ⟨toks, i⟩ = .error e1 := by
    simp only [parseAdditionF, h5]
  have h7 : parseComparisonF (f + 7) ⟨toks, i⟩ = .error e1 := by
    simp only [parseComparisonF, h6]
  have h8 : parseEqualityF (f + 8) ⟨toks, i⟩ = .error e1 := by
    simp only [parseEqualityF, h7]
  have h9 : parseAndF (f + 9) ⟨toks, i⟩ = .error e1 := by
    simp only [parseAndF, h8]
  have h10 : parseOrF (f + 10) ⟨toks, i⟩ = .error e1 := by
    simp only [parseOrF, h9]
  exact ⟨e1, by simp only [parseExpressionF, h10]⟩

/-- The statement loop stops (without error) when the cursor is at EOF. -/
theorem stmts_stop (f j : ℕ) (toks : List Token) (body : List Statement)
    (he : (toks.getD j undefinedToken).type = .EOF) :
    parseStatementsF (f + 1) ⟨toks, j⟩ body = .ok (body, ⟨toks, j⟩) := by
  simp only [List.getD_eq_getElem?_getD] at he
  simp only [parseStatementsF, pPeek, pIsEOF, isNextToken]
  simp [he]

theorem parseStatements_ab (f : ℕ) (a m1 b e : Token)
    (ha : SimpleOperand a) (hm1 : m1.type = .MOD) (hb : SimpleOperand b)
    (he : e.type = .EOF) :
    ∃ l r loc sloc,
      parseStatementsF (f + 13) ⟨[a, m1, b, e], 0⟩ [] =
        .ok ([.exprStmt (.binary "%" l r loc) sloc], ⟨[a, m1, b, e], 3⟩) := by
  have ha0 : SimpleOperand (([a, m1, b, e] : List Token).getD 0 undefinedToken) := ha
  have hm1' : (([a, m1, b, e] : List Token).getD (0 + 1) undefinedToken).type = .MOD := hm1
  have hb' : SimpleOperand (([a, m1, b, e] : List Token).getD (0 + 2) undefinedToken) := hb
  have hfollow : ModOrEof (([a, m1, b, e] : List Token).getD (0 + 3) undefinedToken) :=
    Or.inr he
  obtain ⟨l, r, loc, hexp⟩ :=
    parseExpression_mod f 0 [a, m1, b, e] ha0 hm1' hb' hfollow
  have hexp3 : parseExpressionF (f + 11) ⟨[a, m1, b, e], 0⟩ =
      .ok (.binary "%" l r loc, ⟨[a, m1, b, e], 3⟩) := hexp
  have hstep1 : parseStatementF (f + 12) ⟨[a, m1, b, e], 0⟩ =
      .ok (.exprStmt (.binary "%" l r loc)
        ⟨(exprLoc (Expression.binary "%" l r loc)).start,
         (exprLoc (Expression.binary "%" l r loc)).stop⟩,
        ⟨[a, m1, b, e], 3⟩) := by
    rcases ha with h | h | h | h | h <;>
    · simp only [parseStatementF, pPeek]
      simp [h, hexp3, pMatch, pIsEOF]
  have he3 : (([a, m1, b, e] : List Token).getD 3 undefinedToken).type = .EOF := he
  have hdone : ∀ body, parseStatementsF (f + 12) ⟨[a, m1, b, e], 3⟩ body =
      .ok (body, ⟨[a, m1, b, e], 3⟩) :=
    fun body => stmts_stop (f + 11) 3 [a, m1, b, e] body he3
  refine ⟨l, r, loc,
    ⟨(exprLoc (Expression.binary "%" l r loc)).start,
     (exprLoc (Expression.binary "%" l r loc)).stop⟩, ?_⟩
  obtain ⟨g, hg⟩ : ∃ g : ℕ, g = f + 12 := ⟨f + 12, rfl⟩
  rw [← hg] at hstep1 hdone
  rw [show f + 13 = g + 1 by omega]
  rcases ha with h | h | h | h | h <;>
  · simp only [parseStatementsF, pPeek, pIsEOF, isNextToken]
    simp [h, hstep1, hdone]

theorem parseStatements_abc (f : ℕ) (a m1 b m2 c e : Token)
    (ha : SimpleOperand a) (hm1 : m1.type = .MOD) (hb : SimpleOperand b)
    (hm2 : m2.type = .MOD) (he : e.type = .EOF) :
    ∃ er, parseStatementsF (f + 14) ⟨[a, m1, b, m2, c, e], 0⟩ [] =
      .error er := by
  have ha0 : SimpleOperand (([a, m1, b, m2, c, e] : List Token).getD 0 undefinedToken) := ha
  have hm1' : (([a, m1, b, m2, c, e] : List Token).getD (0 + 1) undefinedToken).type = .MOD := hm1
  have hb' : SimpleOperand (([a, m1, b, m2, c, e] : List Token).getD (0 + 2) undefinedToken) := hb
  have hfollow : ModOrEof (([a, m1, b, m2, c, e] : List Token).getD (0 + 3) undefinedToken) :=
    Or.inl hm2
  obtain ⟨l, r, loc, hexp⟩ :=
    parseExpression_mod (f + 1) 0 [a, m1, b, m2, c, e] ha0 hm1' hb' hfollow
  have hexp3 : parseExpressionF (f + 12) ⟨[a, m1, b, m2, c, e], 0⟩ =
      .ok (.binary "%" l r loc, ⟨[a, m1, b, m2, c, e], 3⟩) := hexp
  have hstep1 : parseStatementF (f + 13) ⟨[a, m1, b, m2, c, e], 0⟩ =
      .ok (.exprStmt (.binary "%" l r loc)
        ⟨(exprLoc (Expression.binary "%" l r loc)).start,
         (exprLoc (Expression.binary "%" l r loc)).stop⟩,
        ⟨[a, m1, b, m2, c, e], 3⟩) := by
    rcases ha with h | h | h | h | h <;>
    · simp only [parseStatementF, pPeek]
      simp [h, hexp3, pMatch, pIsEOF]
  have hm2' : (([a, m1, b, m2, c, e] : List Token).getD 3 undefinedToken).type = .MOD := hm2
  obtain ⟨er1, h1⟩ := parseExpression_err_at_mod f 3 [a, m1, b, m2, c, e] hm2'
  have hstepErr : ∃ er2, parseStatementF (f + 12) ⟨[a, m1, b, m2, c, e], 3⟩ =
      .error er2 := by
    simp only [parseStatementF, pPeek]
    simp [hm2, h1]
  obtain ⟨er2, h2⟩ := hstepErr
  have herr2 : ∀ body : List Statement,
      ∃ er, parseStatementsF (f + 13) ⟨[a, m1, b, m2, c, e], 3⟩ body =
        .error er := by
    intro body
    obtain ⟨g, hg⟩ : ∃ g : ℕ, g = f + 12 := ⟨f + 12, rfl⟩
    rw [← hg] at h2
    rw [show f + 13 = g + 1 by omega]
    simp only [parseStatementsF, pPeek, pIsEOF, isNextToken]
    simp [hm2, h2]
  obtain ⟨er3, h3⟩ := herr2 ([Statement.exprStmt (Expression.binary "%" l r loc)
    ⟨(exprLoc (Expression.binary "%" l r loc)).start,
     (exprLoc (Expression.binary "%" l r loc)).stop⟩])
  obtain ⟨g2, hg2⟩ : ∃ g : ℕ, g = f + 13 := ⟨f + 13, rfl⟩
  rw [← hg2] at hstep1 h3
  rw [show f + 14 = g2 + 1 by omega]
  rcases ha with h | h | h | h | h <;>
  · simp only [parseStatementsF, pPeek, pIsEOF, isNextToken]
    simp [h, hstep1, h3]

/-- C7: modulo is non-associative — for any token stream of the shape
`a % b % c` (simple operands chained with two `%` tokens before EOF),
`parse` returns a non-null error, because `parseModulo` matches `%` only
once and the second `%` is left for the statement loop, which fails on
it; whereas `a % b` alone parses without error into a single
expression-statement whose expression is the BinaryExpression `%`. -/
theorem modulo_non_associative (a m1 b m2 c e : Token)
    (ha : SimpleOperand a) (hm1 : m1.type = .MOD) (hb : SimpleOperand b)
    (hm2 : m2.type = .MOD) (hc : SimpleOperand c) (he : e.type = .EOF) :
    (parse [a, m1, b, m2, c, e]).error ≠ none ∧
      (parse [a, m1, b, e]).error = none ∧
      ∃ l r loc sloc, (parse [a, m1, b, e]).ast.body =
        [.exprStmt (.binary "%" l r loc) sloc] := by
  obtain ⟨er, hA⟩ := parseStatements_abc 336 a m1 b m2 c e ha hm1 hb hm2 he
  have hA' : parseStatementsF 350 ⟨[a, m1, b, m2, c, e], 0⟩ [] = .error er := hA
  obtain ⟨l, r, loc, sloc, hB⟩ := parseStatements_ab 237 a m1 b e ha hm1 hb he
  have hB' : parseStatementsF 250 ⟨[a, m1, b, e], 0⟩ [] =
      .ok ([.exprStmt (.binary "%" l r loc) sloc], ⟨[a, m1, b, e], 3⟩) := hB
  refine ⟨?_, ?_, ⟨l, r, loc, sloc, ?_⟩⟩
  · simp [parse, hA']
  · simp [parse, hB']
  · simp [parse, hB', makeProgram]

theorem modulo_non_associative_witness :
    (parse [⟨.NUMBER, "1", 1, 1, 0, 1⟩, ⟨.MOD, "%", 1, 3, 2, 3⟩,
        ⟨.NUMBER, "2", 1, 5, 4, 5⟩, ⟨.MOD, "%", 1, 7, 6, 7⟩,
        ⟨.NUMBER, "3", 1, 9, 8, 9⟩, ⟨.EOF, "", 1, 10, 9, 9⟩]).error ≠ none ∧
      (parse [⟨.NUMBER, "1", 1, 1, 0, 1⟩, ⟨.MOD, "%", 1, 3, 2, 3⟩,
        ⟨.NUMBER, "2", 1, 5, 4, 5⟩, ⟨.EOF, "", 1, 10, 9, 9⟩]).error = none ∧
      ∃ l r loc sloc,
        (parse [⟨.NUMBER, "1", 1, 1, 0, 1⟩, ⟨.MOD, "%", 1, 3, 2, 3⟩,
          ⟨.NUMBER, "2", 1, 5, 4, 5⟩, ⟨.EOF, "", 1, 10, 9, 9⟩]).ast.body =
          [.exprStmt (.binary "%" l r loc) sloc] :=
  modulo_non_associative
    ⟨.NUMBER, "1", 1, 1, 0, 1⟩ ⟨.MOD, "%", 1, 3, 2, 3⟩
    ⟨.NUMBER, "2", 1, 5, 4, 5⟩ ⟨.MOD, "%", 1, 7, 6, 7⟩
    ⟨.NUMBER, "3", 1, 9, 8, 9⟩ ⟨.EOF, "", 1, 10, 9, 9⟩
    (Or.inl rfl) rfl (Or.inl rfl) rfl (Or.inl rfl) rfl

/-! ## Claim C9 — the `is_truthy` helper -/

/-- C9.  `is_truthy` on a well-formed boxed value returns 0 exactly for
the falsy values — nil, the number 0, the empty string, `false` — and 1
for every other boxed value. -/
theorem is_truthy_zero_iff_falsy (cell : BoxCell)
    (h : WellFormedBox cell) :
    (isTruthySem cell = 0 ↔ FalsyBox cell) ∧
    (¬ FalsyBox cell → isTruthySem cell = 1) := by
  obtain ⟨htag, hbool⟩ := h
  rcases cell with ⟨tag, a, b, f⟩
  simp only [isTruthySem, FalsyBox] at *
  interval_cases tag <;> simp_all
  · rcases hbool with h | h <;> simp [h]

/-- Witness for C9 at the boxed value `true` (tag 3, payload 1): well-
formed, not falsy, and `is_truthy` returns 1 on it. -/
theorem is_truthy_zero_iff_falsy_witness :
    WellFormedBox ⟨3, 1, 0, 0⟩ ∧
    ¬ FalsyBox ⟨3, 1, 0, 0⟩ ∧
    isTruthySem ⟨3, 1, 0, 0⟩ = 1 :=
  ⟨by decide, by decide,
   (is_truthy_zero_iff_falsy ⟨3, 1, 0, 0⟩
     ⟨by decide, fun _ => Or.inr rfl⟩).2 (by decide)⟩

/-! ## Claim C8 — string-table deduplication -/

/-- A table reached by a sequence of `getOffset` calls from the fresh
table `compile` allocates. -/
def buildTable (ops : List String) : StringTable :=
  ops.foldl (fun t str => (t.getOffset str).2) StringTable.empty

/-- The distinct elements of a list in first-encounter order. -/
def firstDedup (ops : List String) : List String :=
  ops.foldl (fun acc str => if str ∈ acc then acc else acc ++ [str]) []

/-- The running `memoryOffset` always equals the table's total byte
size. -/
def TableInv (t : StringTable) : Prop :=
  t.memoryOffset = t.getBytes.length

theorem lookup_none_iff (l : List (String × ℕ)) (s : String) :
    l.lookup s = none ↔ s ∉ l.map Prod.fst := by
  induction l with
  | nil => simp [List.lookup]
  | cons p rest ih =>
    rcases p with ⟨k, v⟩
    rw [List.lookup]
    by_cases h : s = k
    · subst h
      simp
    · rw [show (s == k) = false from beq_eq_false_iff_ne.mpr h]
      simp [h, ih]

theorem lookup_append_none (l1 l2 : List (String × ℕ)) (s : String)
    (h : l1.lookup s = none) : (l1 ++ l2).lookup s = l2.lookup s := by
  induction l1 with
  | nil => simp
  | cons p rest ih =>
    rcases p with ⟨k, v⟩
    rw [List.lookup] at h
    rw [List.cons_append, List.lookup]
    by_cases hk : s = k
    · rw [show (s == k) = true from beq_iff_eq.mpr hk] at h
      simp at h
    · rw [show (s == k) = false from beq_eq_false_iff_ne.mpr hk] at h ⊢
      exact ih h

/-- A second `getOffset` of the same string returns the offset the first
call assigned and leaves the table unchanged. -/
theorem getOffset_idem (t : StringTable) (s : String) :
    (t.getOffset s).2.getOffset s = ((t.getOffset s).1, (t.getOffset s).2) := by
  cases h : t.entries.lookup s with
  | some off => simp [StringTable.getOffset, h]
  | none =>
    simp only [StringTable.getOffset, h]
    rw [lookup_append_none _ _ _ h]
    simp [List.lookup]

theorem getOffset_preserves_inv (t : StringTable) (s : String)
    (h : TableInv t) : TableInv (t.getOffset s).2 := by
  cases hl : t.entries.lookup s with
  | some off => simpa [StringTable.getOffset, hl]
  | none =>
    simp only [TableInv, StringTable.getOffset, hl, StringTable.getBytes]
      at h ⊢
    simp [List.map_append, List.flatten_append, h]
    omega

theorem getBytes_names (t : StringTable) :
    t.getBytes =
      ((t.entries.map Prod.fst).map fun s => utf8Bytes s ++ [0x00]).flatten := by
  simp [StringTable.getBytes, List.map_map]
  rfl

/-- `getOffset` appends the string to the entry order exactly when it is
new. -/
theorem getOffset_names (t : StringTable) (s : String) :
    (t.getOffset s).2.entries.map Prod.fst =
      (if s ∈ t.entries.map Prod.fst then t.entries.map Prod.fst
       else t.entries.map Prod.fst ++ [s]) := by
  cases hl : t.entries.lookup s with
  | some off =>
    have hmem : s ∈ t.entries.map Prod.fst := by
      by_contra hc
      rw [(lookup_none_iff t.entries s).mpr hc] at hl
      cases hl
    simp [StringTable.getOffset, hl, hmem]
  | none =>
    have hmem := (lookup_none_iff t.entries s).mp hl
    simp [StringTable.getOffset, hl, hmem]

theorem buildTable_go_inv (ops : List String) :
    ∀ t : StringTable, TableInv t →
      TableInv (ops.foldl (fun t str => (t.getOffset str).2) t) := by
  induction ops with
  | nil => intro t h; simpa
  | cons s rest ih =>
    intro t h
    exact ih _ (getOffset_preserves_inv t s h)

theorem buildTable_inv (ops : List String) : TableInv (buildTable ops) :=
  buildTable_go_inv ops StringTable.empty rfl

theorem buildTable_names_go (ops : List String) :
    ∀ t : StringTable,
      (ops.foldl (fun t str => (t.getOffset str).2) t).entries.map Prod.fst =
        ops.foldl (fun acc str => if str ∈ acc then acc else acc ++ [str])
          (t.entries.map Prod.fst) := by
  induction ops with
  | nil => intro t; rfl
  | cons s rest ih =>
    intro t
    rw [List.foldl_cons, List.foldl_cons, ih, getOffset_names]

/-- The entries of a built table are the distinct interned literals in
first-encounter order. -/
theorem buildTable_names (ops : List String) :
    (buildTable ops).entries.map Prod.fst = firstDedup ops :=
  buildTable_names_go ops StringTable.empty

theorem firstDedup_nodup_go (ops : List String) :
    ∀ acc : List String, acc.Nodup →
      (ops.foldl (fun acc str => if str ∈ acc then acc else acc ++ [str])
        acc).Nodup := by
  induction ops with
  | nil => intro acc h; simpa
  | cons s rest ih =>
    intro acc h
    rw [List.foldl_cons]
    by_cases hs : s ∈ acc
    · simpa [hs] using ih acc h
    · have : (acc ++ [s]).Nodup := by
        simp [List.nodup_append, h, hs]
      simpa [hs] using ih _ this

theorem firstDedup_nodup (ops : List String) : (firstDedup ops).Nodup :=
  firstDedup_nodup_go ops [] List.nodup_nil

/-- C8.  For every table built by interning a sequence of literals:
`getOffset` is idempotent (a second lookup of `s` returns the offset of
the first and leaves the table unchanged); a first encounter of `s` is
assigned the table's current total byte size; and the emitted bytes
(`getBytes`, which `_compile` places verbatim in the data segment) list
each distinct literal exactly once, in first-encounter order, each entry
terminated by a single zero byte. -/
theorem string_table_dedup (ops : List String) (s : String) :
    ((buildTable ops).getOffset s).2.getOffset s =
      (((buildTable ops).getOffset s).1, ((buildTable ops).getOffset s).2) ∧
    ((buildTable ops).entries.lookup s = none →
      ((buildTable ops).getOffset s).1 = (buildTable ops).getBytes.length) ∧
    (buildTable ops).getBytes =
      ((firstDedup ops).map fun str => utf8Bytes str ++ [0x00]).flatten ∧
    ((buildTable ops).entries.map Prod.fst).Nodup := by
  refine ⟨getOffset_idem _ s, ?_, ?_, ?_⟩
  · intro h
    have hinv := buildTable_inv ops
    simp [StringTable.getOffset, h, TableInv] at hinv ⊢
    exact hinv
  · rw [getBytes_names, buildTable_names]
  · rw [buildTable_names]; exact firstDedup_nodup ops

/-- Witness for C8 on the literal sequence `hi`, `yo`, `hi` and the
fresh literal `new`: the first-encounter offset of `new` is the table's
byte size, and the bytes are one `hi\0` and one `yo\0`. -/
theorem string_table_dedup_witness :
    ((buildTable ["hi", "yo", "hi"]).getOffset "new").1 =
      (buildTable ["hi", "yo", "hi"]).getBytes.length ∧
    (buildTable ["hi", "yo", "hi"]).getBytes =
      (["hi", "yo"].map fun str => utf8Bytes str ++ [0x00]).flatten :=
  ⟨(string_table_dedup ["hi", "yo", "hi"] "new").2.1 (by decide),
   by decide⟩

/-! ## Claim C10 — `compile` is deterministic -/

/-- C10.  `_compile` starts by overwriting every piece of module-level
mutable state the code generator uses — the scope stack, the local-index
counter, the scratch slot, the user-function registry, the function-body
record — and `compile` allocates a fresh string table; hence two calls on
the same AST return identical `bytes`, `error` and `meta.strings`, no
matter what state earlier compilations left behind. -/
theorem compile_deterministic (ast : Program) (s1 s2 : CState) :
    (compile ast s1).1 = (compile ast s2).1 := by
  cases s1; cases s2; rfl

end PinkyWasm

